import Mathlib

/-!
# Verification of the org-parser repository against its specification

This file gives a shallow embedding, in Lean 4, of the core algorithms of the
`org-parser` repository (the streaming line classifier `org_parser.py`, the
inline tokenizer `tokenize_inline_org_markup`, and the table-formula
evaluator and HTML helpers of `org_to_html.py`), together with theorems
settling the specification claims about them.

Embedding conventions:
* Python strings are modelled as `List Char` (with `String` wrappers where
  convenient); Python's `list.append` / `list.pop()` stacks are modelled with
  the *top of the stack at the head* of a Lean list.
* Python `float` values are modelled as exact rationals `ℚ`.  The claims
  settled here only exercise arithmetic on small integer-valued cells, where
  IEEE double arithmetic is exact, so the rational model is faithful on every
  input appearing in a theorem below.  Operations whose Python result is
  irrational (`sqrt` of a non-square, non-integer powers) are modelled as
  evaluation errors; no claim exercises them.
* Fallible Python code (raising exceptions) is modelled with `Except String`.
* Python regular expressions from `config_loader.DEFAULT_CONFIG` are modelled
  by direct, deterministic scanning functions (each regex there is
  backtracking-free on its alphabet).
-/

namespace OrgParser

/-- Python `str.isspace`-style whitespace as used by `\s`, `str.strip()` and
`str.split()` in the repository (ASCII whitespace; the repository's inputs
are ASCII org files). -/
def isPySpace (c : Char) : Bool :=
  c = ' ' || c = '\t' || c = '\n' || c = '\x0d' || c = '\x0b' || c = '\x0c'

/-- Python `str.strip()` on a character list. -/
def pyStripList (l : List Char) : List Char :=
  ((l.dropWhile isPySpace).reverse.dropWhile isPySpace).reverse

/-- Python `str.strip()`. -/
def pyStrip (s : String) : String :=
  ⟨pyStripList s.data⟩

/-- Python `str.lstrip()`. -/
def pyLStrip (s : String) : String :=
  ⟨s.data.dropWhile isPySpace⟩

/-- A character of Python's regex class `\w` (ASCII reading). -/
def isWordChar (c : Char) : Bool :=
  c.isAlpha || c.isDigit || c = '_'

/-- Lower-casing of an ASCII letter, modelling Python `str.lower()` on the
repository's directive keys and block names. -/
def pyLowerChar (c : Char) : Char :=
  if 'A' ≤ c ∧ c ≤ 'Z' then Char.ofNat (c.toNat + 32) else c

/-- Python `str.lower()`. -/
def pyLower (s : String) : String :=
  ⟨s.data.map pyLowerChar⟩

/-- Python `str.startswith` (character-level, for symbolic reasoning). -/
def pyStartsWith (s pre : String) : Bool :=
  pre.data.isPrefixOf s.data

/-- Python `str.endswith` (character-level). -/
def pyEndsWith (s suf : String) : Bool :=
  suf.data.reverse.isPrefixOf s.data.reverse

/-- `html.escape(text, quote=True)` from Python's standard library, as used by
`escape_html` in `org_to_html.py`: `&` is replaced first, then `<`, `>`, `"`
and `'`. -/
def escapeHtmlChar (c : Char) : List Char :=
  if c = '&' then "&amp;".data
  else if c = '<' then "&lt;".data
  else if c = '>' then "&gt;".data
  else if c = '"' then "&quot;".data
  else if c = '\'' then "&#x27;".data
  else [c]

/-- `escape_html` from `org_to_html.py` (a thin wrapper around
`html.escape(text, quote=True)`).  Because `&` is escaped before the other
characters, the sequential `str.replace` chain of `html.escape` acts
independently on each input character, which is what this per-character map
expresses. -/
def escape_html (s : String) : String :=
  ⟨s.data.flatMap escapeHtmlChar⟩

/-- The hashed payload built by `math_image_url` in `org_to_html.py`:
`macros = (preamble_macros or "").strip()` followed by
`payload_for_hash = macros + "\n%%MATH%%\n" + (math_src or "")`.
The SHA-1 hashing itself and the on-disk cache are external collaborators
(spec §6); the cache key is determined by this payload. -/
def payload_for_hash (preamble_macros math_src : String) : String :=
  pyStrip preamble_macros ++ "\n%%MATH%%\n" ++ math_src

/-- The payload that the *specification's words* describe for the math cache
key: "hash of macro-preamble + `\n` + math source".  Defined from the spec,
to be compared with `payload_for_hash`, which is defined from the source. -/
def payload_spec (preamble_macros math_src : String) : String :=
  preamble_macros ++ "\n" ++ math_src

/-! ## Table formula evaluator (`org_to_html.py`)

Python `float` values are modelled as exact rationals.  Parsing of numeric
strings (Python's `float(s)` / `int(s)` constructors and numeric literals)
is modelled on finite decimal literals with optional sign, fraction and
exponent; the special spellings `inf`/`nan` and digit-group underscores are
outside the model (no claim exercises them). -/

/-- Numeric value of a list of decimal digit characters. -/
def digitsVal (l : List Char) : ℕ :=
  l.foldl (fun a c => a * 10 + (c.toNat - 48)) 0

/-- Python `float(s)` on a finite decimal literal, as an exact rational.
Returns `none` where Python raises `ValueError`. -/
def pyFloat? (s : String) : Option ℚ :=
  let l := pyStripList s.data
  let sl : ℚ × List Char :=
    match l with
    | '+' :: t => (1, t)
    | '-' :: t => (-1, t)
    | _ => (1, l)
  let sgn := sl.1
  let l := sl.2
  let intPart := l.takeWhile Char.isDigit
  let rest := l.dropWhile Char.isDigit
  let fr : List Char × List Char :=
    match rest with
    | '.' :: t => (t.takeWhile Char.isDigit, t.dropWhile Char.isDigit)
    | _ => ([], rest)
  let fracPart := fr.1
  let rest := fr.2
  if intPart.isEmpty ∧ fracPart.isEmpty then none
  else
    let mantissa : ℚ :=
      sgn * ((digitsVal intPart : ℚ) + (digitsVal fracPart : ℚ) / 10 ^ fracPart.length)
    match rest with
    | [] => some mantissa
    | e :: t =>
      if e = 'e' ∨ e = 'E' then
        let es : ℤ × List Char :=
          match t with
          | '+' :: u => (1, u)
          | '-' :: u => (-1, u)
          | _ => (1, t)
        let eds := es.2.takeWhile Char.isDigit
        let rest2 := es.2.dropWhile Char.isDigit
        if eds.isEmpty ∨ ¬rest2.isEmpty then none
        else some (mantissa * (10 : ℚ) ^ (es.1 * digitsVal eds))
      else none

/-- Python `int(s)` on a string argument (strict: optional sign and digits
only, surrounding whitespace allowed). -/
def pyIntOfString? (s : String) : Option ℤ :=
  let l := pyStripList s.data
  let sl : ℤ × List Char :=
    match l with
    | '+' :: t => (1, t)
    | '-' :: t => (-1, t)
    | _ => (1, l)
  if sl.2.isEmpty ∨ ¬(sl.2.all Char.isDigit) then none
  else some (sl.1 * digitsVal sl.2)

/-- `_coerce_number` from `org_to_html.py`: strip, empty ↦ `0.0`, try
`float(s)`, then `float(s.replace(",", "."))`, else `0.0`. -/
def _coerce_number (value : String) : ℚ :=
  let s := pyStrip value
  if s = "" then 0
  else
    match pyFloat? s with
    | some q => q
    | none =>
      match pyFloat? ⟨s.data.map fun c => if c = ',' then '.' else c⟩ with
      | some q => q
      | none => 0

/-- Round half to even (Python's builtin `round` with one argument). -/
def bankerRound (q : ℚ) : ℤ :=
  let f := ⌊q⌋
  let frac := q - f
  if frac < 1 / 2 then f
  else if 1 / 2 < frac then f + 1
  else if f % 2 = 0 then f else f + 1

/-- Truncation toward zero (Python's `int()` on a float). -/
def pyTrunc (q : ℚ) : ℤ :=
  if q < 0 then ⌈q⌉ else ⌊q⌋

/-- Exact rational square root, when it exists. -/
def ratSqrt? (q : ℚ) : Option ℚ :=
  let n := Nat.sqrt q.num.toNat
  let d := Nat.sqrt q.den
  if (n : ℤ) * n = q.num ∧ d * d = q.den then some ((n : ℚ) / d) else none

/-- `_format_result` from `org_to_html.py`.  The integer branch
(`abs(x - round(x)) < 1e-12`) is exact in the rational model.  The fallback
branch prints Python's `str(float)`; on a rational model we print the exact
rational instead — no claim below reaches the fallback branch. -/
def _format_result (x : ℚ) : String :=
  if |x - (bankerRound x : ℚ)| < 1 / 1000000000000 then toString (bankerRound x)
  else toString x

/-! ### The restricted Python expression AST of `_safe_eval`

`_safe_eval` runs `ast.parse(expr, mode="eval")` and then walks the tree,
rejecting every node that is not in its allow-list before compiling and
evaluating.  The AST is embedded below; node kinds outside the allow-list
are represented by the `attribute`, `subscript` and `other` constructors and
by operator kinds outside `{Add, Sub, Mult, Div, Mod, Pow, USub, UAdd}`. -/

/-- Python `ast` binary operator node kinds. -/
inductive PyOp where
  | add | sub | mult | div | mod | pow
  | floordiv | matmult | lshift | rshift | bitor | bitxor | bitand
  deriving Repr, DecidableEq

/-- Python `ast` unary operator node kinds. -/
inductive PyUOp where
  | uadd | usub | notOp | invert
  deriving Repr, DecidableEq

/-- Python `ast.Constant` payloads. -/
inductive PyConst where
  | num (q : ℚ)
  | str (s : String)
  | bool (b : Bool)
  | none
  deriving Repr, DecidableEq

mutual

/-- Embedded Python expression AST (`ast.parse(expr, mode="eval")` body).
`attribute`, `subscript` and `other` stand for the node kinds outside
`_safe_eval`'s allow-list. -/
inductive PyExpr where
  | binop (op : PyOp) (l r : PyExpr)
  | unaryop (op : PyUOp) (e : PyExpr)
  | const (c : PyConst)
  | name (id : String)
  | call (func : PyExpr) (args : PyArgs)
  | attribute (value : PyExpr) (attr : String)
  | subscript (value : PyExpr) (index : PyExpr)
  | other (kind : String)
  deriving Repr, DecidableEq

/-- Argument list of a Python `ast.Call`. -/
inductive PyArgs where
  | nil
  | cons (head : PyExpr) (tail : PyArgs)
  deriving Repr, DecidableEq

end

/-- The function-call allow-list of `_safe_eval`. -/
def allowedFuncs : List String :=
  ["abs", "round", "min", "max", "int", "float", "sqrt"]

/-- Binary operator node kinds in `_safe_eval`'s `allowed_nodes`. -/
def isAllowedOp : PyOp → Bool
  | .add | .sub | .mult | .div | .mod | .pow => true
  | _ => false

/-- Unary operator node kinds in `_safe_eval`'s `allowed_nodes`. -/
def isAllowedUOp : PyUOp → Bool
  | .uadd | .usub => true
  | _ => false

/-- Is a `Call` callee rejected by `_safe_eval` ("Only simple function calls
allowed" / "Function not allowed")? -/
def badCallee : PyExpr → Bool
  | .name id => decide (id ∉ allowedFuncs)
  | _ => true

mutual

/-- Does the AST contain a node outside `_safe_eval`'s allow-list, or a
`Call` with a rejected callee?  This is the condition under which
`_safe_eval` raises before evaluating anything. -/
def containsBad : PyExpr → Bool
  | .binop op l r => !isAllowedOp op || containsBad l || containsBad r
  | .unaryop op e => !isAllowedUOp op || containsBad e
  | .const _ => false
  | .name _ => false
  | .call f args => badCallee f || containsBad f || containsBadArgs args
  | .attribute _ _ => true
  | .subscript _ _ => true
  | .other _ => true

/-- `containsBad` over an argument list. -/
def containsBadArgs : PyArgs → Bool
  | .nil => false
  | .cons a as => containsBad a || containsBadArgs as

end

mutual

/-- The `ast.walk` validation loop of `_safe_eval`: raise `ValueError` on any
node outside the allow-list, and on any `Call` whose callee is not a plain
`Name` from the allow-list.  (Python walks breadth-first; this check walks
depth-first.  Which bad node gets reported first can differ, but whether an
error is raised cannot.) -/
def checkExpr : PyExpr → Except String Unit
  | .binop op l r =>
    if isAllowedOp op then do
      checkExpr l
      checkExpr r
    else .error "Disallowed expression node"
  | .unaryop op e =>
    if isAllowedUOp op then checkExpr e else .error "Disallowed expression node"
  | .const _ => .ok ()
  | .name _ => .ok ()
  | .call f args =>
    match f with
    | .name id =>
      if id ∈ allowedFuncs then checkArgs args
      else .error ("Function not allowed: " ++ id)
    | _ => .error "Only simple function calls allowed"
  | .attribute _ _ => .error "Disallowed expression node: Attribute"
  | .subscript _ _ => .error "Disallowed expression node: Subscript"
  | .other kind => .error ("Disallowed expression node: " ++ kind)

/-- `checkExpr` over an argument list. -/
def checkArgs : PyArgs → Except String Unit
  | .nil => .ok ()
  | .cons a as => do
    checkExpr a
    checkArgs as

end

/-- Runtime values of the sandboxed evaluation (a Python value reaching the
final `float(...)` conversion): numbers, strings, and the builtin function
objects that a bare allow-listed `Name` evaluates to. -/
inductive PyVal where
  | num (q : ℚ)
  | str (s : String)
  | fn (name : String)
  | noneV
  deriving Repr, DecidableEq

/-- Name lookup in `_safe_eval`'s environment: `env = dict(allowed_funcs);
env.update(names)`, so the numeric bindings shadow the builtins. -/
def lookupName (names : List (String × ℚ)) (id : String) : Except String PyVal :=
  match names.lookup id with
  | some q => .ok (.num q)
  | none =>
    if id ∈ allowedFuncs then .ok (.fn id)
    else .error ("NameError: name " ++ id ++ " is not defined")

/-- Binary arithmetic on runtime values (Python semantics on the rational
model; `TypeError`s become errors, which the caller catches per formula).
String repetition (`str * int`) is outside the model. -/
def evalBinOp (op : PyOp) (a b : PyVal) : Except String PyVal :=
  match op, a, b with
  | .add, .num x, .num y => .ok (.num (x + y))
  | .sub, .num x, .num y => .ok (.num (x - y))
  | .mult, .num x, .num y => .ok (.num (x * y))
  | .div, .num x, .num y =>
    if y = 0 then .error "ZeroDivisionError: float division by zero"
    else .ok (.num (x / y))
  | .mod, .num x, .num y =>
    if y = 0 then .error "ZeroDivisionError: float modulo"
    else .ok (.num (x - ⌊x / y⌋ * y))
  | .pow, .num x, .num y =>
    if y.den = 1 then
      if x = 0 ∧ y.num < 0 then
        .error "ZeroDivisionError: zero cannot be raised to a negative power"
      else .ok (.num (x ^ y.num))
    else .error "non-integer power: irrational result outside the rational model"
  | .add, .str x, .str y => .ok (.str (x ++ y))
  | _, _, _ => .error "TypeError: unsupported operand type(s)"

/-- Python's builtin `min`/`max` over the evaluated numeric arguments. -/
def foldExtremum (op : ℚ → ℚ → ℚ) : ℚ → List PyVal → Except String ℚ
  | acc, [] => .ok acc
  | acc, .num q :: rest => foldExtremum op (op acc q) rest
  | _, _ => .error "TypeError: comparison not supported"

/-- Application of an allow-listed builtin to its evaluated arguments. -/
def applyBuiltin (f : String) (args : List PyVal) : Except String PyVal :=
  match f, args with
  | "abs", [.num q] => .ok (.num |q|)
  | "round", [.num q] => .ok (.num (bankerRound q))
  | "round", [.num q, .num n] =>
    if n.den = 1 then
      .ok (.num ((bankerRound (q * (10 : ℚ) ^ n.num) : ℚ) * (10 : ℚ) ^ (-n.num)))
    else .error "TypeError: ndigits must be an integer"
  | "min", .num q :: rest => (.num ·) <$> foldExtremum min q rest
  | "max", .num q :: rest => (.num ·) <$> foldExtremum max q rest
  | "int", [.num q] => .ok (.num (pyTrunc q))
  | "int", [.str s] =>
    match pyIntOfString? s with
    | some z => .ok (.num z)
    | none => .error "ValueError: invalid literal for int()"
  | "float", [.num q] => .ok (.num q)
  | "float", [.str s] =>
    match pyFloat? s with
    | some q => .ok (.num q)
    | none => .error "ValueError: could not convert string to float"
  | "sqrt", [.num q] =>
    if q < 0 then .error "ValueError: math domain error"
    else
      match ratSqrt? q with
      | some r => .ok (.num r)
      | none => .error "irrational square root outside the rational model"
  | _, _ => .error "TypeError: bad builtin application"

mutual

/-- Evaluation of a (checked) expression, modelling
`eval(compiled, {"__builtins__": {}}, env)` inside `_safe_eval`.  Runtime
failures (`ZeroDivisionError`, `NameError`, `TypeError`) become errors. -/
def evalExpr (names : List (String × ℚ)) : PyExpr → Except String PyVal
  | .binop op l r => do
    let a ← evalExpr names l
    let b ← evalExpr names r
    evalBinOp op a b
  | .unaryop op e => do
    let v ← evalExpr names e
    match op, v with
    | .usub, .num q => .ok (.num (-q))
    | .uadd, .num q => .ok (.num q)
    | _, _ => .error "TypeError: bad operand type for unary operator"
  | .const c =>
    match c with
    | .num q => .ok (.num q)
    | .str s => .ok (.str s)
    | .bool b => .ok (.num (if b then 1 else 0))
    | .none => .ok .noneV
  | .name id => lookupName names id
  | .call f args => do
    let fv ← evalExpr names f
    let avs ← evalArgs names args
    match fv with
    | .fn g => applyBuiltin g avs
    | _ => .error "TypeError: object is not callable"
  | .attribute _ _ => .error "Attribute evaluation is unreachable after the check"
  | .subscript _ _ => .error "Subscript evaluation is unreachable after the check"
  | .other kind => .error ("evaluation of " ++ kind ++ " is unreachable after the check")

/-- Left-to-right evaluation of call arguments. -/
def evalArgs (names : List (String × ℚ)) : PyArgs → Except String (List PyVal)
  | .nil => .ok []
  | .cons a as => do
    let v ← evalExpr names a
    let vs ← evalArgs names as
    .ok (v :: vs)

end

/-- The final `float(eval(...))` conversion of `_safe_eval`. -/
def pyFloatOfVal : PyVal → Except String ℚ
  | .num q => .ok q
  | .str s =>
    match pyFloat? s with
    | some q => .ok q
    | none => .error "ValueError: could not convert string to float"
  | .fn _ => .error "TypeError: float() argument cannot be a function"
  | .noneV => .error "TypeError: float() argument cannot be None"

/-- `_safe_eval` from `org_to_html.py`, on an already-parsed AST: first the
`ast.walk` allow-list check (raising before any evaluation), then evaluation
and the final `float(...)` conversion. -/
def _safe_eval (e : PyExpr) (names : List (String × ℚ)) : Except String ℚ := do
  checkExpr e
  let v ← evalExpr names e
  pyFloatOfVal v

/-! ### TBLFM expression rewriting

`_apply_column_formulas_to_table` rewrites each right-hand side with
`str.replace("^", "**")` and the three regex substitutions
`_PREVROW_COL_RE` (`@-1\$(\d+)` ↦ `pK`), `_PREVROW_SAMECOL_RE`
(`(?<![\w$])@-1(?![\w$])` ↦ `p<dest>`) and `_COLREF_RE` (`\$(\d+)` ↦ `cK`),
in that order.  `re.sub` scans the input left to right, non-overlapping,
advancing one character on a failed match; the substitutions below scan the
same way. -/

/-- `expr.replace("^", "**")`. -/
def replaceCaret (l : List Char) : List Char :=
  l.flatMap fun c => if c = '^' then ['*', '*'] else [c]

/-- Scanner for `_PREVROW_COL_RE.sub(lambda m: f"p{m.group(1)}", expr)`:
`@-1$K` ↦ `pK`.  Fuelled by the input length (each step consumes at least
one character, so the fuel never runs out when started at the length). -/
def subPrevRowColAux : ℕ → List Char → List Char
  | _, [] => []
  | 0, l => l
  | fuel + 1, '@' :: '-' :: '1' :: '$' :: rest =>
    match rest.takeWhile Char.isDigit with
    | [] => '@' :: subPrevRowColAux fuel ('-' :: '1' :: '$' :: rest)
    | ds => 'p' :: ds ++ subPrevRowColAux fuel (rest.dropWhile Char.isDigit)
  | fuel + 1, c :: rest => c :: subPrevRowColAux fuel rest

/-- `_PREVROW_COL_RE.sub(lambda m: f"p{m.group(1)}", expr)`. -/
def subPrevRowCol (l : List Char) : List Char :=
  subPrevRowColAux l.length l

/-- Is a character in the regex class `[\w$]` (the lookaround class of
`_PREVROW_SAMECOL_RE`)? -/
def isWordOrDollar (c : Char) : Bool :=
  isWordChar c || c = '$'

/-- Scanner for `_PREVROW_SAMECOL_RE.sub(f"p{dest_col}", expr)`:
a bare `@-1` (no `[\w$]` right before or after) ↦ `p<dest_col>`.
`prevOk` records that the character before the current position is absent or
outside `[\w$]`; lookarounds read the *input* string, as `re.sub` does. -/
def subPrevRowSameAux (dest : List Char) : ℕ → Bool → List Char → List Char
  | _, _, [] => []
  | 0, _, l => l
  | fuel + 1, prevOk, '@' :: '-' :: '1' :: rest =>
    if prevOk && (match rest with
                  | [] => true
                  | c :: _ => !isWordOrDollar c) then
      dest ++ subPrevRowSameAux dest fuel false rest
    else '@' :: subPrevRowSameAux dest fuel true ('-' :: '1' :: rest)
  | fuel + 1, _, c :: rest => c :: subPrevRowSameAux dest fuel (!isWordOrDollar c) rest

/-- `_PREVROW_SAMECOL_RE.sub(f"p{dest_col}", expr)`. -/
def subPrevRowSame (dest_col : ℕ) (l : List Char) : List Char :=
  subPrevRowSameAux ('p' :: (toString dest_col).data) l.length true l

/-- Scanner for `_COLREF_RE.sub(lambda m: f"c{m.group(1)}", expr)`:
`$K` ↦ `cK` (fuelled by the input length, as above). -/
def subColRefAux : ℕ → List Char → List Char
  | _, [] => []
  | 0, l => l
  | fuel + 1, '$' :: rest =>
    match rest.takeWhile Char.isDigit with
    | [] => '$' :: subColRefAux fuel rest
    | ds => 'c' :: ds ++ subColRefAux fuel (rest.dropWhile Char.isDigit)
  | fuel + 1, c :: rest => c :: subColRefAux fuel rest

/-- `_COLREF_RE.sub(lambda m: f"c{m.group(1)}", expr)`: `$K` ↦ `cK`. -/
def subColRef (l : List Char) : List Char :=
  subColRefAux l.length l

/-- The complete right-hand-side rewrite of `_apply_column_formulas_to_table`
(lines 405–412): strip, `^` ↦ `**`, previous-row references, column
references. -/
def rewriteRhs (dest_col : ℕ) (rhs : String) : String :=
  ⟨subColRef (subPrevRowSame dest_col (subPrevRowCol (replaceCaret (pyStrip rhs).data)))⟩

/-! ### A model of `ast.parse(expr, mode="eval")` for the arithmetic subset

`_safe_eval` hands the rewritten expression to Python's parser.  The model
below parses the arithmetic fragment (numbers, string literals, names,
`+ - * / % **`, unary signs, parentheses, calls, subscripts) with Python's
precedence.  Inputs that Python parses into syntax outside this fragment
(e.g. comparisons, lambdas) make the model return `none` where Python would
return an AST that the `ast.walk` check then rejects; at every use site both
outcomes are caught by the same `try/except` and leave the cell unchanged. -/

/-- Tokens of the expression language. -/
inductive ETok where
  | num (q : ℚ)
  | ident (s : String)
  | strLit (s : String)
  | sym (s : String)
  deriving Repr, DecidableEq

/-- Lex a numeric literal (digits, optional fraction, optional exponent).
Returns the value and the rest. -/
def lexNumber (l : List Char) : Option (ℚ × List Char) :=
  let intPart := l.takeWhile Char.isDigit
  let rest := l.dropWhile Char.isDigit
  let fr : List Char × List Char :=
    match rest with
    | '.' :: t => (t.takeWhile Char.isDigit, t.dropWhile Char.isDigit)
    | _ => ([], rest)
  let fracPart := fr.1
  let rest := fr.2
  if intPart.isEmpty ∧ fracPart.isEmpty then none
  else
    let mantissa : ℚ :=
      (digitsVal intPart : ℚ) + (digitsVal fracPart : ℚ) / 10 ^ fracPart.length
    match rest with
    | 'e' :: t | 'E' :: t =>
      let es : ℤ × List Char :=
        match t with
        | '+' :: u => (1, u)
        | '-' :: u => (-1, u)
        | _ => (1, t)
      let eds := es.2.takeWhile Char.isDigit
      if eds.isEmpty then none
      else some (mantissa * (10 : ℚ) ^ (es.1 * digitsVal eds), es.2.dropWhile Char.isDigit)
    | _ => some (mantissa, rest)

/-- Scan to the matching closing quote of a string literal; returns the inner
text and the rest.  (Backslash escapes are outside the model; no formula in
the repository's test corpus quotes strings at all.) -/
def splitAtQuote (q : Char) : List Char → Option (List Char × List Char)
  | [] => none
  | c :: rest =>
    if c = q then some ([], rest)
    else
      match splitAtQuote q rest with
      | some (inner, rest2) => some (c :: inner, rest2)
      | none => none

/-- Tokenizer for the expression language, fuelled by the input length
(every step consumes at least one character).  Unknown characters are
lexical errors (Python `SyntaxError`). -/
def lexExprAux : ℕ → List Char → Option (List ETok)
  | _, [] => some []
  | 0, _ :: _ => none
  | fuel + 1, c :: rest =>
    if isPySpace c then lexExprAux fuel rest
    else if c.isDigit || (c == '.' && (match rest with
                                       | d :: _ => d.isDigit
                                       | [] => false)) then
      match lexNumber (c :: rest) with
      | some (q, rest2) =>
        match lexExprAux fuel rest2 with
        | some ts => some (.num q :: ts)
        | none => none
      | none => none
    else if c.isAlpha ∨ c = '_' then
      let ds := rest.takeWhile isWordChar
      match lexExprAux fuel (rest.dropWhile isWordChar) with
      | some ts => some (.ident ⟨c :: ds⟩ :: ts)
      | none => none
    else if c = '\'' ∨ c = '"' then
      match splitAtQuote c rest with
      | some (inner, rest2) =>
        match lexExprAux fuel rest2 with
        | some ts => some (.strLit ⟨inner⟩ :: ts)
        | none => none
      | none => none
    else if c = '*' then
      match rest with
      | '*' :: rest2 =>
        match lexExprAux fuel rest2 with
        | some ts => some (.sym "**" :: ts)
        | none => none
      | _ =>
        match lexExprAux fuel rest with
        | some ts => some (.sym "*" :: ts)
        | none => none
    else if c = '+' ∨ c = '-' ∨ c = '/' ∨ c = '%' ∨ c = '(' ∨ c = ')' ∨
            c = ',' ∨ c = '[' ∨ c = ']' then
      match lexExprAux fuel rest with
      | some ts => some (.sym ⟨[c]⟩ :: ts)
      | none => none
    else none

/-- Tokenize an expression string. -/
def lexExpr (l : List Char) : Option (List ETok) :=
  lexExprAux l.length l

mutual

/-- Additive level: `expr := term (("+"|"-") term)*`. -/
def parseE : ℕ → List ETok → Option (PyExpr × List ETok)
  | 0, _ => none
  | fuel + 1, ts => do
    let (a, ts) ← parseT fuel ts
    parseELoop fuel a ts

/-- Left-associative chain of `+`/`-`. -/
def parseELoop : ℕ → PyExpr → List ETok → Option (PyExpr × List ETok)
  | 0, _, _ => none
  | fuel + 1, acc, ts =>
    match ts with
    | .sym "+" :: rest => do
      let (b, ts2) ← parseT fuel rest
      parseELoop fuel (.binop .add acc b) ts2
    | .sym "-" :: rest => do
      let (b, ts2) ← parseT fuel rest
      parseELoop fuel (.binop .sub acc b) ts2
    | _ => some (acc, ts)

/-- Multiplicative level: `term := factor (("*"|"/"|"%") factor)*`. -/
def parseT : ℕ → List ETok → Option (PyExpr × List ETok)
  | 0, _ => none
  | fuel + 1, ts => do
    let (a, ts) ← parseF fuel ts
    parseTLoop fuel a ts

/-- Left-associative chain of `*`/`/`/`%`. -/
def parseTLoop : ℕ → PyExpr → List ETok → Option (PyExpr × List ETok)
  | 0, _, _ => none
  | fuel + 1, acc, ts =>
    match ts with
    | .sym "*" :: rest => do
      let (b, ts2) ← parseF fuel rest
      parseTLoop fuel (.binop .mult acc b) ts2
    | .sym "/" :: rest => do
      let (b, ts2) ← parseF fuel rest
      parseTLoop fuel (.binop .div acc b) ts2
    | .sym "%" :: rest => do
      let (b, ts2) ← parseF fuel rest
      parseTLoop fuel (.binop .mod acc b) ts2
    | _ => some (acc, ts)

/-- Unary level: `factor := ("+"|"-") factor | power`. -/
def parseF : ℕ → List ETok → Option (PyExpr × List ETok)
  | 0, _ => none
  | fuel + 1, ts =>
    match ts with
    | .sym "+" :: rest => do
      let (e, ts2) ← parseF fuel rest
      some (.unaryop .uadd e, ts2)
    | .sym "-" :: rest => do
      let (e, ts2) ← parseF fuel rest
      some (.unaryop .usub e, ts2)
    | _ => parseP fuel ts

/-- Power level: `power := atom-with-suffixes ["**" factor]` (right binding,
as in Python). -/
def parseP : ℕ → List ETok → Option (PyExpr × List ETok)
  | 0, _ => none
  | fuel + 1, ts => do
    let (a, ts2) ← parseAtom fuel ts
    match ts2 with
    | .sym "**" :: rest => do
      let (b, ts3) ← parseF fuel rest
      some (.binop .pow a b, ts3)
    | _ => some (a, ts2)

/-- Atoms: literals, names (with the `True`/`False`/`None` keywords reading
as constants, as in Python), parenthesized expressions; followed by any
number of call/subscript suffixes. -/
def parseAtom : ℕ → List ETok → Option (PyExpr × List ETok)
  | 0, _ => none
  | fuel + 1, ts =>
    match ts with
    | .num q :: rest => parseSuffix fuel (.const (.num q)) rest
    | .strLit s :: rest => parseSuffix fuel (.const (.str s)) rest
    | .ident "True" :: rest => parseSuffix fuel (.const (.bool true)) rest
    | .ident "False" :: rest => parseSuffix fuel (.const (.bool false)) rest
    | .ident "None" :: rest => parseSuffix fuel (.const .none) rest
    | .ident s :: rest => parseSuffix fuel (.name s) rest
    | .sym "(" :: rest => do
      let (e, ts2) ← parseE fuel rest
      match ts2 with
      | .sym ")" :: rest2 => parseSuffix fuel e rest2
      | _ => none
    | _ => none

/-- Call `f(args)` and subscript `a[i]` suffixes. -/
def parseSuffix : ℕ → PyExpr → List ETok → Option (PyExpr × List ETok)
  | 0, _, _ => none
  | fuel + 1, acc, ts =>
    match ts with
    | .sym "(" :: .sym ")" :: rest => parseSuffix fuel (.call acc .nil) rest
    | .sym "(" :: rest => do
      let (args, ts2) ← parseArgs fuel rest
      parseSuffix fuel (.call acc args) ts2
    | .sym "[" :: rest => do
      let (e, ts2) ← parseE fuel rest
      match ts2 with
      | .sym "]" :: rest2 => parseSuffix fuel (.subscript acc e) rest2
      | _ => none
    | _ => some (acc, ts)

/-- Comma-separated call arguments, consuming the closing parenthesis. -/
def parseArgs : ℕ → List ETok → Option (PyArgs × List ETok)
  | 0, _ => none
  | fuel + 1, ts => do
    let (e, ts2) ← parseE fuel ts
    match ts2 with
    | .sym "," :: rest => do
      let (args, ts3) ← parseArgs fuel rest
      some (.cons e args, ts3)
    | .sym ")" :: rest => some (.cons e .nil, rest)
    | _ => none

end

/-- Model of `ast.parse(expr, mode="eval")` on the arithmetic fragment:
lex, parse with Python's precedence, and require that all input is consumed.
`none` corresponds to a `SyntaxError`. -/
def ast_parse (expr : String) : Option PyExpr :=
  match lexExpr expr.data with
  | none => none
  | some ts =>
    match parseE (6 * ts.length + 12) ts with
    | some (e, []) => some e
    | _ => none

/-! ### `_parse_tblfm_assignments` and `_apply_column_formulas_to_table` -/

/-- The prefix of a list before the first occurrence of `c`
(`raw.split(c, 1)[0]`). -/
def takeUntilChar (c : Char) (l : List Char) : List Char :=
  l.takeWhile (· ≠ c)

/-- The suffix of a list after the first occurrence of `c`
(`raw.split(c, 1)[1]`, defined when `c` occurs). -/
def dropThroughChar (c : Char) (l : List Char) : List Char :=
  (l.dropWhile (· ≠ c)).drop 1

/-- The left-hand-side match of `_TBLFM_LHS_RE` (`^\s*(\$\>|\$\d+)\s*$`,
applied to the already-stripped side): `$>` picks the last column, `$N` an
explicit column. -/
def parseLhsDest (max_cols : ℕ) : List Char → Option ℕ
  | ['$', '>'] => some max_cols
  | '$' :: ds => if ¬ds.isEmpty ∧ ds.all Char.isDigit then some (digitsVal ds) else none
  | _ => none

/-- `_parse_tblfm_assignments` from `org_to_html.py`: per formula, drop the
`;`-suffixed calc options, require an `=`, strip both sides, require a
non-empty right side and a `$N`/`$>` left side with positive destination. -/
def _parse_tblfm_assignments (formulas : List String) (max_cols : ℕ) :
    List (ℕ × String) :=
  formulas.filterMap fun raw =>
    let core := pyStripList (takeUntilChar ';' raw.data)
    if ¬core.contains '=' then none
    else
      let lhs := pyStripList (takeUntilChar '=' core)
      let rhs := pyStripList (dropThroughChar '=' core)
      if rhs.isEmpty then none
      else
        match parseLhsDest max_cols lhs with
        | none => none
        | some dest => if dest = 0 then none else some (dest, ⟨rhs⟩)

/-- A table row buffered by the renderer: `{"type": "row", "cells": [...]}`
or `{"type": "hline"}`. -/
inductive TRow where
  | row (cells : List String)
  | hline
  deriving Repr, DecidableEq

/-- Is the buffered entry a data row? -/
def TRow.isRow : TRow → Bool
  | .row _ => true
  | .hline => false

/-- `max_cols`: the maximum observed cell count over the data rows. -/
def maxColsOf (table_rows : List TRow) : ℕ :=
  table_rows.foldl
    (fun acc r =>
      match r with
      | .row cells => max acc cells.length
      | .hline => acc)
    0

/-- Pad every data row to `max_cols` cells with empty strings. -/
def padRows (max_cols : ℕ) (table_rows : List TRow) : List TRow :=
  table_rows.map fun r =>
    match r with
    | .row cells =>
      if cells.length < max_cols then
        .row (cells ++ List.replicate (max_cols - cells.length) "")
      else .row cells
    | .hline => .hline

/-- Header detection: the index of the first horizontal rule that still has a
data row below it (rows strictly before it are header rows). -/
def firstHlineFrom : ℕ → List TRow → Option ℕ
  | _, [] => none
  | i, .hline :: rest =>
    if rest.any TRow.isRow then some i else firstHlineFrom (i + 1) rest
  | i, .row _ :: rest => firstHlineFrom (i + 1) rest

/-- The per-row numeric bindings `c1..cN` (current row) and `p1..pN`
(previous data row, all zero for the first).  After padding, every data row
has exactly `max_cols` cells, so the `getD` defaults are never used. -/
def buildNames (max_cols : ℕ) (cells : List String) (prev : Option (List String)) :
    List (String × ℚ) :=
  ((List.range max_cols).map fun k =>
    ("c" ++ toString (k + 1), _coerce_number (cells.getD k ""))) ++
  ((List.range max_cols).map fun k =>
    ("p" ++ toString (k + 1),
      match prev with
      | none => 0
      | some pc => _coerce_number (pc.getD k "")))

/-- Python `dict` assignment `names[k] = v` on an association list. -/
def dictSet (names : List (String × ℚ)) (k : String) (v : ℚ) :
    List (String × ℚ) :=
  if names.any (·.1 = k) then names.map fun p => if p.1 = k then (k, v) else p
  else names ++ [(k, v)]

/-- Lines 414–425 of `org_to_html.py`, given the outcome of `_safe_eval`:
the `try/except` catches evaluation failures ("fail soft: do not change the
cell"); on success the write into the destination cell is bounds-guarded,
but the following `names[f"c{dest_col}"] = _coerce_number(cells[dest_col - 1])`
update reads the destination cell *unguarded* — an out-of-range destination
raises `IndexError` there. -/
def applyEvalResult (max_cols dest_col : ℕ) (cells : List String)
    (names : List (String × ℚ)) (res : Except String ℚ) :
    Except String (List String × List (String × ℚ)) :=
  match res with
  | .error _ => .ok (cells, names)
  | .ok result =>
    let cells' :=
      if 1 ≤ dest_col ∧ dest_col ≤ max_cols then
        cells.set (dest_col - 1) (_format_result result)
      else cells
    match cells'.get? (dest_col - 1) with
    | none => .error "IndexError: list index out of range"
    | some cv =>
      .ok (cells', dictSet names ("c" ++ toString dest_col) (_coerce_number cv))

/-- One `(dest_col, rhs)` assignment applied to one row: rewrite the
right-hand side, parse it (a `SyntaxError` is caught by the same
`try/except` and leaves the cell unchanged), evaluate, and store. -/
def applyAssignment (max_cols : ℕ) (cells : List String)
    (names : List (String × ℚ)) (dest_col : ℕ) (rhs : String) :
    Except String (List String × List (String × ℚ)) :=
  match ast_parse (rewriteRhs dest_col rhs) with
  | none => .ok (cells, names)
  | some e => applyEvalResult max_cols dest_col cells names (_safe_eval e names)

/-- All assignments applied in order to one row (later formulas see the
updated `c<dest>` binding). -/
def applyAssignmentsToRow (max_cols : ℕ) :
    List (ℕ × String) → List String → List (String × ℚ) →
    Except String (List String)
  | [], cells, _ => .ok cells
  | (d, rhs) :: rest, cells, names => do
    let (cells', names') ← applyAssignment max_cols cells names d rhs
    applyAssignmentsToRow max_cols rest cells' names'

/-- The row loop of `_apply_column_formulas_to_table`: header rows are never
targets; previous-row tracking advances only over non-header data rows. -/
def applyRowsLoop (max_cols : ℕ) (assignments : List (ℕ × String))
    (first_hline : Option ℕ) :
    ℕ → Option (List String) → List TRow → Except String (List TRow)
  | _, _, [] => .ok []
  | idx, prev, .hline :: rest =>
    (.hline :: ·) <$> applyRowsLoop max_cols assignments first_hline (idx + 1) prev rest
  | idx, prev, .row cells :: rest =>
    if (match first_hline with
        | some h => decide (idx < h)
        | none => false) then
      (.row cells :: ·) <$>
        applyRowsLoop max_cols assignments first_hline (idx + 1) prev rest
    else do
      let cells' ← applyAssignmentsToRow max_cols assignments cells
        (buildNames max_cols cells prev)
      let rest' ← applyRowsLoop max_cols assignments first_hline (idx + 1) (some cells') rest
      .ok (.row cells' :: rest')

/-- `_apply_column_formulas_to_table` from `org_to_html.py`.  The Python
function mutates `table_rows` in place; here the updated rows are returned.
A `.error` result models an exception propagating out of the function to its
caller (the rows mutated before the raise are not represented in that
case). -/
def _apply_column_formulas_to_table (table_rows : List TRow)
    (tblfm_formulas : List String) : Except String (List TRow) :=
  let max_cols := maxColsOf table_rows
  if max_cols = 0 then .ok table_rows
  else
    let padded := padRows max_cols table_rows
    let assignments := _parse_tblfm_assignments tblfm_formulas max_cols
    if assignments.isEmpty then .ok padded
    else applyRowsLoop max_cols assignments (firstHlineFrom 0 padded) 0 none padded

/-! ## The inline tokenizer (`tokenize_inline_org_markup`, `org_parser.py`)

The Python function scans the line left to right with an index `i`,
buffering unmatched characters into a plaintext buffer.  The embedding
recurses over the remaining suffix, tracking the previously consumed
character (`text[i-1]`; `none` at the start of the line), and is fuelled by
the input length — every step consumes at least one character, so the fuel
never runs out when started at the length. -/

/-- Index of the first occurrence of the adjacent two-character pattern
`a, b` (Python `text.find(ab)` relative to the search start). -/
def findPair (a b : Char) : List Char → Option ℕ
  | [] => none
  | [_] => none
  | x :: y :: rest =>
    if x = a ∧ y = b then some 0
    else
      match findPair a b (y :: rest) with
      | some k => some (k + 1)
      | none => none

/-- Index of the first occurrence of a character (Python `text.find(c)`). -/
def findChar (c : Char) : List Char → Option ℕ
  | [] => none
  | x :: rest =>
    if x = c then some 0
    else
      match findChar c rest with
      | some k => some (k + 1)
      | none => none

/-- The emphasis delimiter map `delimiter_to_type`. -/
def delimType : Char → Option String
  | '*' => some "bold_text"
  | '/' => some "italic_text"
  | '=' => some "code"
  | '~' => some "code"
  | _ => none

/-- Opening punctuation accepted before an emphasis opener (`"([{\"'"`). -/
def openPunct : List Char := ['(', '[', '\x7b', '"', '\'']

/-- Closing punctuation accepted after an emphasis closer
(`".,;:!?)]}\"'"`). -/
def closePunct : List Char :=
  ['.', ',', ';', ':', '!', '?', ')', ']', '\x7d', '"', '\'']

/-- `is_valid_emphasis_open(pos, delim)` in terms of the previous character
(`none` at position 0) and the next character (`none` at end of line).  The
function's special case for a leading `"* "` is subsumed by the
next-character whitespace test and therefore has no separate branch here. -/
def validEmphOpen (prev : Option Char) (next : Option Char) : Bool :=
  match next with
  | none => false
  | some n =>
    !isPySpace n &&
      (match prev with
       | none => true
       | some p => isPySpace p || openPunct.contains p)

/-- `is_valid_emphasis_close(pos, delim)` in terms of the character before
the candidate closer and the one after it. -/
def validEmphClose (prev : Char) (next : Option Char) : Bool :=
  !isPySpace prev &&
    (match next with
     | none => true
     | some n => isPySpace n || closePunct.contains n)

/-- The closing-delimiter scan of the emphasis branch: the index of the
first valid closer in the suffix after the opener (`prev` starts as the
opener itself, which is `text[j-1]` for the first candidate). -/
def findEmphClose (delim : Char) : Char → List Char → Option ℕ
  | _, [] => none
  | prev, c :: rest =>
    if c = delim ∧ validEmphClose prev rest.head? then some 0
    else
      match findEmphClose delim c rest with
      | some k => some (k + 1)
      | none => none

/-- `flush_plaintext`: prepend the buffer as one plaintext token when it is
non-empty. -/
def flushBuf (buf : List Char) (toks : List (String × String)) :
    List (String × String) :=
  if buf.isEmpty then toks else ("plaintext", ⟨buf⟩) :: toks

/-- The single-`$` branch: `some (inner, k)` when a closing `$` at index `k`
exists and the inner text is not whitespace-only (a math-inline span);
`none` when the `$` falls back to a literal character. -/
def singleDollarMath? (rest : List Char) : Option (List Char × ℕ) :=
  match findChar '$' rest with
  | some k =>
    let inner := rest.take k
    if (pyStripList inner).isEmpty then none else some (inner, k)
  | none => none

/-- The `[[url]]` / `[[url][desc]]` payload: pack stripped url and
description (defaulting to the url when there is no `][` separator) with a
NUL separator, as the Python tokenizer does. -/
def linkPayload (inner : List Char) : String :=
  let ud : List Char × List Char :=
    match findPair ']' '[' inner with
    | some j => (inner.take j, inner.drop (j + 2))
    | none => (inner, inner)
  ⟨pyStripList ud.1 ++ '\x00' :: pyStripList ud.2⟩

/-- The scanning loop of `tokenize_inline_org_markup`.  Branch order follows
the Python code: `\( … \)`, `$$ … $$`, single `$`, `[[ … ]]`, emphasis
delimiters, and the plaintext fallback. -/
def tokLoop : ℕ → Option Char → List Char → List Char → List (String × String)
  | _, _, buf, [] => flushBuf buf []
  | 0, _, buf, rest => flushBuf (buf ++ rest) []
  | fuel + 1, _, buf, '\\' :: '(' :: rest =>
    (match findPair '\\' ')' rest with
     | some k =>
       flushBuf buf
         (("math_inline", ⟨rest.take k⟩) :: tokLoop fuel (some ')') [] (rest.drop (k + 2)))
     | none => tokLoop fuel (some '\\') (buf ++ ['\\']) ('(' :: rest))
  | fuel + 1, _, buf, '$' :: '$' :: rest =>
    (match findPair '$' '$' rest with
     | some k =>
       tokLoop fuel (some '$') (buf ++ '$' :: '$' :: rest.take (k + 2)) (rest.drop (k + 2))
     | none =>
       -- no closing `$$`: fall through to the single-`$` handling at the same position
       match singleDollarMath? ('$' :: rest) with
       | some (inner, k) =>
         flushBuf buf
           (("math_inline", ⟨inner⟩) :: tokLoop fuel (some '$') [] (('$' :: rest).drop (k + 1)))
       | none => tokLoop fuel (some '$') (buf ++ ['$']) ('$' :: rest))
  | fuel + 1, _, buf, '$' :: rest =>
    (match singleDollarMath? rest with
     | some (inner, k) =>
       flushBuf buf
         (("math_inline", ⟨inner⟩) :: tokLoop fuel (some '$') [] (rest.drop (k + 1)))
     | none => tokLoop fuel (some '$') (buf ++ ['$']) rest)
  | fuel + 1, _, buf, '[' :: '[' :: rest =>
    (match findPair ']' ']' rest with
     | some k =>
       flushBuf buf
         (("link", linkPayload (rest.take k)) :: tokLoop fuel (some ']') [] (rest.drop (k + 2)))
     | none => tokLoop fuel (some '[') (buf ++ ['[']) ('[' :: rest))
  | fuel + 1, prev, buf, c :: rest =>
    match delimType c with
    | some ty =>
      if validEmphOpen prev rest.head? then
        match findEmphClose c c rest with
        | some k =>
          flushBuf buf ((ty, ⟨rest.take k⟩) :: tokLoop fuel (some c) [] (rest.drop (k + 1)))
        | none => tokLoop fuel (some c) (buf ++ [c]) rest
      else tokLoop fuel (some c) (buf ++ [c]) rest
    | none => tokLoop fuel (some c) (buf ++ [c]) rest

/-- `tokenize_inline_org_markup` from `org_parser.py`. -/
def tokenize_inline_org_markup (text : String) : List (String × String) :=
  tokLoop text.data.length none [] text.data

/-! ## The line classifier (`org_parser.py`)

The classifier is configuration-driven; the embedding fixes the
configuration to `config_loader.DEFAULT_CONFIG`, whose regular expressions
are modelled by the deterministic scanning functions below (each pattern is
backtracking-free: its character classes are disjoint from what follows
them). -/

/-- `DEFAULT_CONFIG.verbatim_blocks`. -/
def verbatim_blocks : List String :=
  ["example", "src", "verbatim", "export", "quote"]

/-- `DEFAULT_CONFIG.skip_header_keys` (used by the include resolver's
preamble filtering, `org_reader.py`). -/
def skip_header_keys : List String :=
  ["title", "author", "date", "options"]

/-- Python `dict` assignment `m[k] = v` on a string-valued association list
(insertion order preserved, overwrite in place). -/
def upsertStr (m : List (String × String)) (k v : String) :
    List (String × String) :=
  if m.any (·.1 = k) then m.map fun p => if p.1 = k then (k, v) else p
  else m ++ [(k, v)]

/-- A character of the key class `[A-Za-z0-9_-]` of `header_kv_re`. -/
def isKvKeyChar (c : Char) : Bool :=
  c.isAlpha || c.isDigit || c = '_' || c = '-'

/-- `header_kv_re` (`^\s*#\+([A-Za-z0-9_-]+)\s*:`): returns the key group
when the line matches. -/
def header_kv_match (line : String) : Option String :=
  match line.data.dropWhile isPySpace with
  | '#' :: '+' :: rest =>
    let key := rest.takeWhile isKvKeyChar
    if key.isEmpty then none
    else
      match (rest.dropWhile isKvKeyChar).dropWhile isPySpace with
      | ':' :: _ => some ⟨key⟩
      | _ => none
  | _ => none

/-- `line.split(":", 1)[1].strip() if ":" in line else ""` — the value part
of a `#+KEY: value` line. -/
def kvValue (line : String) : String :=
  if line.data.contains ':' then ⟨pyStripList (dropThroughChar ':' line.data)⟩
  else ""

/-- Case-insensitive removal of an (already lowercase) keyword from the
front of a list, modelling `re.IGNORECASE` literal matching. -/
def dropCaseInsensitive : List Char → List Char → Option (List Char)
  | [], l => some l
  | _ :: _, [] => none
  | p :: ps, c :: cs =>
    if pyLowerChar c = p then dropCaseInsensitive ps cs else none

/-- `block_re` (`^\s*#\+(begin|end)_(\w+)\b\s*(.*)$`, `re.IGNORECASE`):
returns (is-begin, the *lowercased* block name as the handler computes it,
the stripped remainder) on a match. -/
def block_match (line : String) : Option (Bool × String × String) :=
  match line.data.dropWhile isPySpace with
  | '#' :: '+' :: rest =>
    let side : Option (Bool × List Char) :=
      match dropCaseInsensitive "begin".data rest with
      | some r => some (true, r)
      | none =>
        match dropCaseInsensitive "end".data rest with
        | some r => some (false, r)
        | none => none
    match side with
    | none => none
    | some (isBegin, r) =>
      match r with
      | '_' :: r2 =>
        let nm := r2.takeWhile isWordChar
        if nm.isEmpty then none
        else
          some (isBegin, pyLower ⟨nm⟩, ⟨pyStripList (r2.dropWhile isWordChar)⟩)
      | _ => none
  | _ => none

/-- `section_heading_re` (`^([*]+)\s+([^:]*)(.*)$`): returns
(star-run length, group 2, group 3) on a match. -/
def heading_match (line : String) : Option (ℕ × String × String) :=
  let stars := line.data.takeWhile (· = '*')
  if stars.isEmpty then none
  else
    let r := line.data.drop stars.length
    if (r.takeWhile isPySpace).isEmpty then none
    else
      let r2 := r.dropWhile isPySpace
      let g2 := r2.takeWhile (· ≠ ':')
      some (stars.length, ⟨g2⟩, ⟨r2.drop g2.length⟩)

/-- Python `str.split(c)` (all occurrences, empties kept). -/
def splitOnChar (c : Char) : List Char → List (List Char)
  | [] => [[]]
  | x :: rest =>
    let r := splitOnChar c rest
    if x = c then [] :: r
    else
      match r with
      | h :: t => (x :: h) :: t
      | [] => [[x]]

/-- `extract_heading_tags` from `org_parser.py`: a trailing `:tag:tag:`
segment wholly delimited by colons. -/
def extract_heading_tags (trailing : String) : Option (List String) :=
  if ¬trailing.data.contains ':' then none
  else
    match pyStripList trailing.data with
    | [] => none
    | h :: t =>
      if h = ':' ∧ (h :: t).getLast? = some ':' then
        let tags := ((splitOnChar ':' (h :: t)).filter fun w => ¬w.isEmpty).map
          fun w => (⟨w⟩ : String)
        if tags.isEmpty then none else some tags
      else none

/-- Python `str.split()` (split on whitespace runs, no empties), fuelled by
the input length. -/
def pySplitWsAux : ℕ → List Char → List (List Char)
  | _, [] => []
  | 0, l => [l]
  | fuel + 1, l =>
    match l.dropWhile isPySpace with
    | [] => []
    | l' =>
      l'.takeWhile (fun c => !isPySpace c) ::
        pySplitWsAux fuel (l'.dropWhile fun c => !isPySpace c)

/-- Python `str.split()`. -/
def pySplitWs (s : String) : List String :=
  (pySplitWsAux s.data.length s.data).map fun w => ⟨w⟩

/-- The scanning loop of `parse_html_attr_args`: `:key value value ... :flag`
pairs; a flag with no following values maps to `"true"`; stray tokens
without a `:` are ignored. -/
def attrLoopAux : ℕ → List String → List (String × String) → List (String × String)
  | _, [], acc => acc
  | 0, _, acc => acc
  | fuel + 1, tok :: rest, acc =>
    if pyStartsWith tok ":" then
      let key := tok.drop 1
      let vals := rest.takeWhile fun t => !pyStartsWith t ":"
      let rest2 := rest.dropWhile fun t => !pyStartsWith t ":"
      attrLoopAux fuel rest2
        (upsertStr acc key (if vals.isEmpty then "true" else String.intercalate " " vals))
    else attrLoopAux fuel rest acc

/-- `parse_html_attr_args` from `org_parser.py`. -/
def parse_html_attr_args (arg_string : String) : List (String × String) :=
  let tokens := pySplitWs (pyStrip arg_string)
  attrLoopAux tokens.length tokens []

/-- The pair-scanning loop of `parse_src_block_options` (fuelled by the
token count; every step consumes at least one token). -/
def srcOptLoop : ℕ → List String → List (String × String) → List (String × String)
  | _, [], acc => acc
  | 0, _, acc => acc
  | fuel + 1, tok :: rest, acc =>
    if ¬pyStartsWith tok ":" then srcOptLoop fuel rest acc
    else
      let key := tok.drop 1
      match rest with
      | [] => upsertStr acc key "true"
      | nxt :: rest2 =>
        if pyStartsWith nxt ":" then srcOptLoop fuel rest (upsertStr acc key "true")
        else srcOptLoop fuel rest2 (upsertStr acc key nxt)

/-- `parse_src_block_options` from `org_parser.py`: first bare token is the
language, then `:key value` / `:flag` pairs. -/
def parse_src_block_options (arg_string : String) : List (String × String) :=
  match pySplitWs (pyStrip arg_string) with
  | [] => []
  | t0 :: rest =>
    if ¬pyStartsWith t0 ":" then srcOptLoop rest.length rest (upsertStr [] "language" t0)
    else srcOptLoop (t0 :: rest).length (t0 :: rest) []

/-- A character of the drawer-name class `[A-Za-z0-9_@#%]`. -/
def isDrawerNameChar (c : Char) : Bool :=
  c.isAlpha || c.isDigit || c = '_' || c = '@' || c = '#' || c = '%'

/-- `drawer_begin_re` (`^\s*:([A-Za-z0-9_@#%]+):\s*$`). -/
def drawer_begin_match (line : String) : Option String :=
  match line.data.dropWhile isPySpace with
  | ':' :: rest =>
    let nm := rest.takeWhile isDrawerNameChar
    if nm.isEmpty then none
    else
      match rest.drop nm.length with
      | ':' :: tail => if (tail.dropWhile isPySpace).isEmpty then some ⟨nm⟩ else none
      | _ => none
  | _ => none

/-- `drawer_end_re` (`^\s*:END:\s*$`, `re.IGNORECASE`). -/
def drawer_end_match (line : String) : Bool :=
  match line.data.dropWhile isPySpace with
  | ':' :: rest =>
    match dropCaseInsensitive "end".data rest with
    | some (':' :: tail) => (tail.dropWhile isPySpace).isEmpty
    | _ => false
  | _ => false

/-- `comment_begin_re` / `comment_end_re`
(`^\s*#\+begin_comment\b` / `^\s*#\+end_comment\b`, `re.IGNORECASE`). -/
def comment_marker_match (keyword : String) (line : String) : Bool :=
  match line.data.dropWhile isPySpace with
  | '#' :: '+' :: rest =>
    match dropCaseInsensitive keyword.data rest with
    | some [] => true
    | some (c :: _) => ¬isWordChar c
    | none => false
  | _ => false

/-- The macro-definition command names of `latex_macro_re`. -/
def latexMacroWords : List String :=
  ["def", "newcommand", "renewcommand", "providecommand",
   "newenvironment", "renewenvironment"]

/-- Does one of the macro-definition words (with a trailing `\b`) start
here? -/
def latexWordAt (w rest : List Char) : Bool :=
  w.isPrefixOf rest &&
    (match rest.drop w.length with
     | [] => true
     | c :: _ => ¬isWordChar c)

/-- `latex_macro_re.search` (`\\(?:def|newcommand|...)\b`, case sensitive,
unanchored). -/
def latex_macro_search : List Char → Bool
  | [] => false
  | c :: rest =>
    (c = '\\' && latexMacroWords.any fun w => latexWordAt w.data rest) ||
      latex_macro_search rest

/-- `unordered_list_re` (`^\s*[-+]\s+(.*)$`): the item text on a match. -/
def unordered_list_match (line : String) : Option String :=
  match line.data.dropWhile isPySpace with
  | c :: rest =>
    if (c = '-' ∨ c = '+') ∧ ¬(rest.takeWhile isPySpace).isEmpty then
      some ⟨rest.dropWhile isPySpace⟩
    else none
  | [] => none

/-- `ordered_list_re` (`^\s*(\d+)[.)]\s+(.*)$`): digits and item text on a
match. -/
def ordered_list_match (line : String) : Option (String × String) :=
  let l := line.data.dropWhile isPySpace
  let ds := l.takeWhile Char.isDigit
  if ds.isEmpty then none
  else
    match l.drop ds.length with
    | p :: rest =>
      if (p = '.' ∨ p = ')') ∧ ¬(rest.takeWhile isPySpace).isEmpty then
        some (⟨ds⟩, ⟨rest.dropWhile isPySpace⟩)
      else none
    | [] => none

/-- `len(line) - len(line.lstrip(" "))` (leading *spaces* only). -/
def listIndent (line : String) : ℕ :=
  (line.data.takeWhile (· = ' ')).length

/-- Python `str.split("::")` (leftmost, non-overlapping). -/
def splitOnDoubleColon : List Char → List (List Char)
  | [] => [[]]
  | ':' :: ':' :: rest => [] :: splitOnDoubleColon rest
  | c :: rest =>
    match splitOnDoubleColon rest with
    | h :: t => (c :: h) :: t
    | [] => [[c]]

/-- Python `str.strip(c)` for a single strip character. -/
def stripChar (c : Char) (l : List Char) : List Char :=
  ((l.dropWhile (· = c)).reverse.dropWhile (· = c)).reverse

/-- `OrgPreamble` from `org_parser.py`: the case-folded header mapping
(insertion order preserved, as in a Python dict). -/
structure OrgPreamble where
  headers : List (String × String)
  deriving Repr, DecidableEq

/-- `OrgState` from `org_parser.py`.  The Python stacks append/pop at the
right end; here the *top of each stack is the head* of the list. -/
structure OrgState where
  preamble : OrgPreamble
  is_in_preamble : Bool
  is_inside_block : Bool
  current_block_name : Option String
  last_block_event : String
  block_stack : List String
  block_verbatim_stack : List Bool
  current_block_is_verbatim : Bool
  is_inside_verbatim_block : Bool
  src_options_stack : List (Option (List (String × String)))
  current_heading_level : Option ℕ
  current_heading_tags : Option (List String)
  src_block_options : Option (List (String × String))
  pending_anchor : Option String
  pending_caption_tokens : Option (List (String × String))
  pending_html_attr : Option (List (String × String))
  is_inside_drawer : Bool
  current_drawer_name : Option String
  current_drawer_lines : Option (List String)
  is_inside_comment : Bool
  current_comment_anchor : Option String
  current_comment_lines : Option (List String)
  latex_macro_lines : List String
  latex_macro_set : List String
  deriving Repr, DecidableEq

/-- The dataclass defaults of `OrgState` (a fresh parser state). -/
def OrgState.init : OrgState where
  preamble := ⟨[]⟩
  is_in_preamble := true
  is_inside_block := false
  current_block_name := none
  last_block_event := ""
  block_stack := []
  block_verbatim_stack := []
  current_block_is_verbatim := false
  is_inside_verbatim_block := false
  src_options_stack := []
  current_heading_level := none
  current_heading_tags := none
  src_block_options := none
  pending_anchor := none
  pending_caption_tokens := none
  pending_html_attr := none
  is_inside_drawer := false
  current_drawer_name := none
  current_drawer_lines := none
  is_inside_comment := false
  current_comment_anchor := none
  current_comment_lines := none
  latex_macro_lines := []
  latex_macro_set := []

/-- `OrgEvent` from `org_parser.py` as a closed tagged union; the three
`block_end` constructors carry the three payload shapes the code emits
(`orphan_ignored`, `mismatch_ignored`+`expected`, and the normal
`verbatim` payload). -/
inductive OrgEvent where
  | preamble_kv (key value : String)
  | preamble_end (reason : String)
  | heading (level : ℕ) (tags : Option (List String)) (anchor : Option String)
  | block_begin (name : String) (verbatim : Bool) (anchor : Option String)
  | block_end_orphan (name : String)
  | block_end_mismatch (name : String) (expected : String)
  | block_end (name : String) (verbatim : Bool)
  | src_begin (src : Option (List (String × String))) (heading_level : Option ℕ)
      (heading_tags : Option (List String)) (anchor : Option String)
  | src_end (src : Option (List (String × String))) (heading_level : Option ℕ)
      (heading_tags : Option (List String))
  | list_item (indent : ℕ) (text : String)
  | ordered_list_item (indent : ℕ) (raw_index : String) (index : Option ℤ) (text : String)
  | name (name : String)
  | caption (caption : String) (tokens : List (String × String))
  | attr_html (raw : String) (attrs : List (String × String))
  | drawer (name : String) (lines : List String)
  | table_row (cells : List String) (raw : String)
  | table_hline (raw : String)
  | line_tokens (tokens : List (String × String))
  | tblfm (raw : String) (formulas : List String)
  | comment (anchor : Option String) (text : String)
  | comment_block (anchor : Option String) (lines : List String)
  | latex_macro_kw (raw : String) (added : Bool) (ignored : Bool)
  deriving Repr, DecidableEq

/-- `_handle_preamble_if_applicable`: store `#+KEY: value` while in the
preamble (blank lines are absorbed), end the preamble at the first other
non-blank line. -/
def handlePreamble (line : String) (s : OrgState) : Option OrgEvent × OrgState :=
  if ¬s.is_in_preamble then (none, s)
  else if pyStrip line = "" then (none, s)
  else
    match header_kv_match line with
    | some key0 =>
      let key := pyLower (pyStrip key0)
      let value := kvValue line
      (some (.preamble_kv key value),
       { s with preamble := ⟨upsertStr s.preamble.headers key value⟩ })
    | none =>
      (some (.preamble_end "first_non_header_content"), { s with is_in_preamble := false })

/-- `_handle_section_heading_if_present`. -/
def handleHeading (line : String) (s : OrgState) : Option OrgEvent × OrgState :=
  match heading_match line with
  | none => (none, s)
  | some (lvl, _, g3) =>
    let tags := extract_heading_tags g3
    (some (.heading lvl tags s.pending_anchor),
     { s with is_in_preamble := false, current_heading_level := some lvl,
              current_heading_tags := tags, pending_anchor := none })

/-- `_handle_latex_macro_keyword_if_present`: cache `#+LATEX:` lines whose
value contains a macro-definition command, deduplicated, in first-seen
order. -/
def handleLatexMacro (line : String) (s : OrgState) : Option OrgEvent × OrgState :=
  match header_kv_match line with
  | none => (none, s)
  | some key0 =>
    if pyLower (pyStrip key0) ≠ "latex" then (none, s)
    else
      let value := kvValue line
      if value = "" then (some (.latex_macro_kw "" false true), s)
      else if ¬latex_macro_search value.data then
        (some (.latex_macro_kw value false true), s)
      else if ¬s.latex_macro_set.contains value then
        (some (.latex_macro_kw value true false),
         { s with latex_macro_set := s.latex_macro_set ++ [value],
                  latex_macro_lines := s.latex_macro_lines ++ [value] })
      else (some (.latex_macro_kw value false false), s)

/-- `_handle_block_marker_if_present`: push on begin (with src header
parsing), and on end: orphan closers are ignored, mismatched closers are
ignored without popping, matching closers pop all three stacks and
recompute the verbatim flag.  (The pop of the parallel verbatim stack can
only run with a non-empty stack by the equal-depth invariant; `headD`/`tail`
realize it here.) -/
def handleBlockMarker (line : String) (s : OrgState) : Option OrgEvent × OrgState :=
  match block_match line with
  | none => (none, s)
  | some (isBegin, block_name, remainder) =>
    let is_verbatim := verbatim_blocks.contains block_name
    if isBegin then
      let bvs := is_verbatim :: s.block_verbatim_stack
      let anchor := s.pending_anchor
      let s1 :=
        { s with block_stack := block_name :: s.block_stack,
                 block_verbatim_stack := bvs,
                 is_inside_verbatim_block := bvs.any id,
                 is_inside_block := true,
                 current_block_name := some block_name,
                 current_block_is_verbatim := is_verbatim,
                 last_block_event := "begin",
                 pending_anchor := none }
      if block_name = "src" then
        let opts := parse_src_block_options remainder
        let optsOpt := if opts.isEmpty then none else some opts
        (some (.src_begin optsOpt s1.current_heading_level s1.current_heading_tags anchor),
         { s1 with src_options_stack := optsOpt :: s.src_options_stack,
                   src_block_options := optsOpt })
      else
        (some (.block_begin block_name is_verbatim anchor),
         { s1 with src_options_stack := none :: s.src_options_stack,
                   src_block_options := none })
    else
      match s.block_stack with
      | [] => (some (.block_end_orphan block_name), s)
      | expected :: stackRest =>
        if expected ≠ block_name then
          (some (.block_end_mismatch block_name expected), s)
        else
          let popped_verbatim := s.block_verbatim_stack.headD false
          let bvs := s.block_verbatim_stack.tail
          let popped_src :=
            match s.src_options_stack with
            | [] => none
            | h :: _ => h
          let sos := s.src_options_stack.tail
          let newSrcOpts : Option (List (String × String)) :=
            match sos with
            | [] => none
            | h :: _ => h
          let s1 :=
            { s with block_stack := stackRest,
                     block_verbatim_stack := bvs,
                     src_options_stack := sos,
                     is_inside_verbatim_block := bvs.any id,
                     is_inside_block := ¬stackRest.isEmpty,
                     current_block_name := stackRest.head?,
                     current_block_is_verbatim := bvs.headD false,
                     last_block_event := "end",
                     src_block_options := newSrcOpts }
          if block_name = "src" then
            (some (.src_end popped_src s1.current_heading_level s1.current_heading_tags), s1)
          else
            (some (.block_end block_name popped_verbatim), s1)

/-- `_handle_drawer_if_present`: `:NAME:` opens, content accumulates, the
closer emits one `drawer` event. -/
def handleDrawer (line : String) (s : OrgState) : Option OrgEvent × OrgState :=
  if s.is_inside_drawer then
    if drawer_end_match line then
      (some (.drawer (s.current_drawer_name.getD "") (s.current_drawer_lines.getD [])),
       { s with is_inside_drawer := false, current_drawer_name := none,
                current_drawer_lines := none })
    else
      (none, { s with current_drawer_lines := some (s.current_drawer_lines.getD [] ++ [line]) })
  else
    match drawer_begin_match line with
    | none => (none, s)
    | some nm =>
      (none, { s with is_inside_drawer := true, current_drawer_name := some nm,
                      current_drawer_lines := some [] })

/-- `_handle_table_if_present` (stateless): hline rows contain only
`- + space` between the outer pipes; data rows are split on `|` and each
cell stripped. -/
def handleTable (line : String) : Option OrgEvent :=
  let stripped := pyLStrip line
  if ¬pyStartsWith stripped "|" then none
  else
    let core := pyStrip stripped
    let inner := pyStripList (stripChar '|' core.data)
    if ¬inner.isEmpty ∧ inner.all (fun ch => ch = '-' ∨ ch = '+' ∨ ch = ' ') then
      some (.table_hline line)
    else
      let core1 := if pyStartsWith core "|" then core.drop 1 else core
      let row_inner := if pyEndsWith core1 "|" then core1.dropRight 1 else core1
      let cells := (splitOnChar '|' row_inner.data).map fun c => (⟨pyStripList c⟩ : String)
      some (.table_row cells line)

/-- `_handle_tblfm_keyword_if_present` (stateless): split the value on `::`,
strip, drop empties. -/
def handleTblfm (line : String) : Option OrgEvent :=
  match header_kv_match line with
  | none => none
  | some key0 =>
    if pyLower (pyStrip key0) ≠ "tblfm" then none
    else
      let value := kvValue line
      let parts := ((splitOnDoubleColon value.data).map pyStripList).filter
        fun w => ¬w.isEmpty
      some (.tblfm value (parts.map fun w => (⟨w⟩ : String)))

/-- `_handle_comment_if_present`: comment-block capture between the begin
and end markers (one `comment_block` event at the end), and single-line `#`
comments (not `#+`). -/
def handleComment (line : String) (s : OrgState) : Option OrgEvent × OrgState :=
  if s.is_inside_comment then
    if comment_marker_match "end_comment" line then
      (some (.comment_block s.current_comment_anchor (s.current_comment_lines.getD [])),
       { s with is_inside_comment := false, current_comment_anchor := none,
                current_comment_lines := none })
    else
      (none, { s with current_comment_lines := some (s.current_comment_lines.getD [] ++ [line]) })
  else if comment_marker_match "begin_comment" line then
    (none, { s with is_inside_comment := true, current_comment_lines := some [],
                    current_comment_anchor := s.pending_anchor, pending_anchor := none })
  else
    let stripped := pyLStrip line
    if pyStartsWith stripped "#" ∧ ¬pyStartsWith (pyLower stripped) "#+" then
      let text0 := stripped.drop 1
      let text := if pyStartsWith text0 " " then text0.drop 1 else text0
      (some (.comment s.pending_anchor text), { s with pending_anchor := none })
    else (none, s)

/-- `_handle_unordered_list_if_present` (stateless). -/
def handleUnordered (line : String) : Option OrgEvent :=
  match unordered_list_match line with
  | none => none
  | some text => some (.list_item (listIndent line) text)

/-- `_handle_ordered_list_if_present` (stateless; the index always parses
for a digit string, kept optional as in the payload). -/
def handleOrdered (line : String) : Option OrgEvent :=
  match ordered_list_match line with
  | none => none
  | some (ds, text) =>
    some (.ordered_list_item (listIndent line) ds (some (digitsVal ds.data : ℤ)) text)

/-- `_handle_name_keyword_if_present`: store (or clear) the pending
anchor. -/
def handleName (line : String) (s : OrgState) : Option OrgEvent × OrgState :=
  match header_kv_match line with
  | none => (none, s)
  | some key0 =>
    if pyLower (pyStrip key0) ≠ "name" then (none, s)
    else
      let value := kvValue line
      (some (.name value),
       { s with pending_anchor := if value = "" then none else some value })

/-- `_handle_caption_keyword_if_present`: tokenize the value, store the
pending caption tokens. -/
def handleCaption (line : String) (s : OrgState) : Option OrgEvent × OrgState :=
  match header_kv_match line with
  | none => (none, s)
  | some key0 =>
    if pyLower (pyStrip key0) ≠ "caption" then (none, s)
    else
      let value := kvValue line
      let tokens := if value = "" then [] else tokenize_inline_org_markup value
      (some (.caption value tokens),
       { s with pending_caption_tokens := if tokens.isEmpty then none else some tokens })

/-- `_handle_attr_html_keyword_if_present`: parse the argument string, store
the pending HTML attributes. -/
def handleAttrHtml (line : String) (s : OrgState) : Option OrgEvent × OrgState :=
  match header_kv_match line with
  | none => (none, s)
  | some key0 =>
    if pyLower (pyStrip key0) ≠ "attr_html" then (none, s)
    else
      let value := kvValue line
      let attrs := if value = "" then [] else parse_html_attr_args value
      (some (.attr_html value attrs),
       { s with pending_html_attr := if attrs.isEmpty then none else some attrs })

/-- `make_line_token_event`. -/
def make_line_token_event (line : String) : OrgEvent :=
  .line_tokens (tokenize_inline_org_markup line)

/-- `parse_org_line` from `org_parser.py`: the fixed per-line handler
precedence with its early returns, mutating the state and returning the
ordered event list. -/
def parse_org_line (line : String) (s0 : OrgState) : OrgState × List OrgEvent :=
  let pr := handlePreamble line s0
  let s1 := pr.2
  let preEvents : List OrgEvent :=
    match pr.1 with
    | some ev => [ev]
    | none => []
  let isKv : Bool :=
    match pr.1 with
    | some (.preamble_kv _ _) => true
    | _ => false
  if isKv then (s1, preEvents ++ [make_line_token_event line])
  else
    let cr := handleComment line s1
    let s2 := cr.2
    match cr.1 with
    | some ev => (s2, preEvents ++ [ev])
    | none =>
      if s2.is_inside_comment then (s2, preEvents)
      else
        let dr := handleDrawer line s2
        let s3 := dr.2
        match dr.1 with
        | some ev => (s3, preEvents ++ [ev])
        | none =>
          if s3.is_inside_drawer then (s3, preEvents)
          else
            match handleTable line with
            | some ev => (s3, preEvents ++ [ev])
            | none =>
              match handleTblfm line with
              | some ev => (s3, preEvents ++ [ev, make_line_token_event line])
              | none =>
                let nr := handleName line s3
                let s4 := nr.2
                match nr.1 with
                | some ev => (s4, preEvents ++ [ev, make_line_token_event line])
                | none =>
                  let capr := handleCaption line s4
                  let s5 := capr.2
                  match capr.1 with
                  | some ev => (s5, preEvents ++ [ev, make_line_token_event line])
                  | none =>
                    let ar := handleAttrHtml line s5
                    let s6 := ar.2
                    match ar.1 with
                    | some ev => (s6, preEvents ++ [ev, make_line_token_event line])
                    | none =>
                      let lr := handleLatexMacro line s6
                      let s7 := lr.2
                      match lr.1 with
                      | some ev => (s7, preEvents ++ [ev, make_line_token_event line])
                      | none =>
                        let hr := handleHeading line s7
                        let s8 := hr.2
                        let hEvents : List OrgEvent :=
                          match hr.1 with
                          | some ev => [ev]
                          | none => []
                        let br := handleBlockMarker line s8
                        let s9 := br.2
                        let bEvents : List OrgEvent :=
                          match br.1 with
                          | some ev => [ev]
                          | none => []
                        let listEvents : List OrgEvent :=
                          if hr.1.isSome then []
                          else
                            match handleUnordered line with
                            | some ev => [ev]
                            | none =>
                              match handleOrdered line with
                              | some ev => [ev]
                              | none => []
                        (s9, preEvents ++ hEvents ++ bEvents ++ listEvents ++
                          [make_line_token_event line])

/-- Fold `parse_org_line` over a line sequence, keeping the final state. -/
def processLines : List String → OrgState → OrgState
  | [], s => s
  | l :: rest, s => processLines rest (parse_org_line l s).1

/-- Fold `parse_org_line` over a line sequence, keeping the per-line event
lists. -/
def parseAll : List String → OrgState → OrgState × List (List OrgEvent)
  | [], s => (s, [])
  | l :: rest, s =>
    let r := parse_org_line l s
    let r2 := parseAll rest r.1
    (r2.1, r.2 :: r2.2)

/-- `should_skip_header_line` from `org_reader.py`. -/
def should_skip_header_line (line : String) : Bool :=
  match header_kv_match line with
  | some key => skip_header_keys.contains (pyLower key)
  | none => false

/-- `preamble_decision` from `org_reader.py` (include-resolver preamble
filtering): `(skip, still_in_preamble)` for a line of an included file. -/
def preamble_decision (line : String) : Bool × Bool :=
  if pyStrip line = "" then (true, true)
  else if should_skip_header_line line then (true, true)
  else (false, false)

/-! ## Inline-token HTML rendering (`org_to_html.py`)

`render_inline_tokens` turns the tokenizer's `(kind, text)` spans into HTML.
The SHA-1 hex digest used inside `math_image_url` is an external collaborator
(spec §6: math rendering and on-disk cache naming are out of scope), so the
rendering functions are parameterized by the digest function; every use of
it below is wrapped in `escape_html` before reaching the output. -/

/-- The prefix of `l` before the first occurrence of `c` (`s.split(c, 1)[0]`),
on strings. -/
def strTakeUntil (c : Char) (s : String) : String :=
  ⟨takeUntilChar c s.data⟩

/-- `is_image_target` from `org_to_html.py`: strip query string and fragment,
lowercase, and test the image-extension suffixes. -/
def is_image_target (url : String) : Bool :=
  let base := pyLower (strTakeUntil '#' (strTakeUntil '?' url))
  [".png", ".jpg", ".jpeg", ".gif", ".svg", ".webp", ".bmp"].any
    fun ext => pyEndsWith base ext

/-- Does the URL carry a scheme, in the sense of `urllib.parse.urlparse`
(a letter followed by letters/digits/`+`/`-`/`.` before the first `:`)? -/
def hasUrlScheme (url : String) : Bool :=
  let before := url.data.takeWhile (· ≠ ':')
  url.data.contains ':' &&
    (match before with
     | [] => false
     | c :: rest =>
       c.isAlpha && rest.all fun d => d.isAlpha || d.isDigit || d = '+' || d = '-' || d = '.')

/-- `normalize_image_src` from `org_to_html.py`: strip a `file:` prefix and
leading slashes, keep absolute URLs and paths, and expose everything else
under `/assets/`. -/
def normalize_image_src (url : String) : String :=
  let url :=
    if pyStartsWith url "file:" then ⟨(url.drop 5).data.dropWhile (· = '/')⟩
    else url
  if hasUrlScheme url || pyStartsWith url "/" then url
  else "/assets/" ++ url

/-- `math_image_url` from `org_to_html.py`, parameterized by the external
SHA-1 hex digest: the returned URL is `/math/<digest>.svg` where the digest
is taken over `payload_for_hash` (the cache file write is external I/O). -/
def math_image_url (sha1Hex : String → String) (math_src : String)
    (preamble_macros : String) : String :=
  "/math/" ++ sha1Hex (payload_for_hash preamble_macros math_src) ++ ".svg"

/-- `"url\u0000desc"` unpacking of a link token (`unpack` logic inlined in
the `link` branch of `render_inline_tokens`). -/
def splitLinkToken (text : String) : String × String :=
  if text.data.contains '\x00' then
    (⟨takeUntilChar '\x00' text.data⟩, ⟨dropThroughChar '\x00' text.data⟩)
  else (text, text)

/-- One token's HTML, following the `if/elif` chain of
`render_inline_tokens` in `org_to_html.py`. -/
def renderToken (sha1Hex : String → String) (preamble_macros : String)
    (tok : String × String) : String :=
  let token_type := tok.1
  let token_text := tok.2
  if token_type = "plaintext" then escape_html token_text
  else if token_type = "bold_text" then
    "<strong>" ++ escape_html token_text ++ "</strong>"
  else if token_type = "italic_text" then
    "<em>" ++ escape_html token_text ++ "</em>"
  else if token_type = "code" then
    "<code>" ++ escape_html token_text ++ "</code>"
  else if token_type = "math_inline" then
    let src := math_image_url sha1Hex token_text preamble_macros
    let alt := if pyStrip token_text = "" then "math" else pyStrip token_text
    "<img src=\"" ++ escape_html src ++ "\" alt=\"" ++ escape_html alt ++
      "\" class=\"math-inline\" />"
  else if token_type = "link" then
    let ul := splitLinkToken token_text
    let url := pyStrip ul.1
    let label := if pyStrip ul.2 = "" then url else pyStrip ul.2
    if is_image_target url then
      let alt_text := if label = "" then url else label
      let web_url := normalize_image_src url
      "<img src=\"" ++ escape_html web_url ++ "\" alt=\"" ++ escape_html alt_text ++
        "\" title=\"" ++ escape_html alt_text ++ "\" class=\"inline-image\" />"
    else
      "<a href=\"" ++ escape_html url ++ "\">" ++ escape_html label ++ "</a>"
  else escape_html token_text

/-- `"".join(out)` over a list of fragments. -/
def joinAll : List String → String
  | [] => ""
  | s :: rest => s ++ joinAll rest

/-- `render_inline_tokens` from `org_to_html.py`. -/
def render_inline_tokens (sha1Hex : String → String) (preamble_macros : String)
    (tokens : List (String × String)) : String :=
  joinAll (tokens.map (renderToken sha1Hex preamble_macros))

/-- The fixed markup fragments (string literals of `render_inline_tokens`)
that may appear in rendered output outside of `escape_html` images. -/
def templateFragments : List String :=
  ["<strong>", "</strong>", "<em>", "</em>", "<code>", "</code>",
   "<img src=\"", "\" alt=\"", "\" class=\"math-inline\" />",
   "\" title=\"", "\" class=\"inline-image\" />",
   "<a href=\"", "\">", "</a>"]

/-- Strings built exclusively from the fixed markup fragments and
`escape_html` images: token-derived text can only enter through
`escape_html`. -/
inductive EscapedConcat : String → Prop where
  | nil : EscapedConcat ""
  | tmpl (t rest : String) : t ∈ templateFragments → EscapedConcat rest →
      EscapedConcat (t ++ rest)
  | esc (s rest : String) : EscapedConcat rest → EscapedConcat (escape_html s ++ rest)

/-- Character-level safety of escaped text: no raw `<`, `>` or `"`, and
every `&` starts one of the five entities produced by `html.escape`. -/
def escapedCharsOk : List Char → Bool
  | [] => true
  | c :: rest =>
    if c = '<' ∨ c = '>' ∨ c = '"' then false
    else if c = '&' then
      (["amp;".data, "lt;".data, "gt;".data, "quot;".data, "#x27;".data].any
        fun e => e.isPrefixOf rest) && escapedCharsOk rest
    else escapedCharsOk rest

/-- The table of claim C3: header row `a | b`, a horizontal rule, and the
data row `1 | 2`. -/
def c3rows : List TRow :=
  [TRow.row ["a", "b"], TRow.hline, TRow.row ["1", "2"]]

/-- Does a buffered table row have exactly three cells? -/
def rowHasThreeCells : TRow → Bool
  | TRow.row cells => cells.length == 3
  | TRow.hline => true

/-- A well-behaved block name for the begin/end marker theorems: non-empty
and made of word characters that are fixed by lower-casing (so the
handler's `.lower()` leaves the name unchanged). -/
def okNameB (n : String) : Bool :=
  !n.data.isEmpty && n.data.all fun c => isWordChar c && (pyLowerChar c == c)

/-- The line `#+begin_<name>`. -/
def beginLine (n : String) : String :=
  ⟨'#' :: '+' :: 'b' :: 'e' :: 'g' :: 'i' :: 'n' :: '_' :: n.data⟩

/-- The line `#+end_<name>`. -/
def endLine (n : String) : String :=
  ⟨'#' :: '+' :: 'e' :: 'n' :: 'd' :: '_' :: n.data⟩

/-- Is a block name configured verbatim? -/
def isVerbB (n : String) : Bool :=
  verbatim_blocks.contains n

/-- The parser state after a `#+begin_<name>` marker (no header arguments):
all three stacks pushed, the verbatim flag recomputed, the block-tracking
fields set, the preamble over, and the pending anchor consumed. -/
def pushState (n : String) (s : OrgState) : OrgState :=
  { s with block_stack := n :: s.block_stack,
           block_verbatim_stack := isVerbB n :: s.block_verbatim_stack,
           is_inside_verbatim_block := (isVerbB n :: s.block_verbatim_stack).any id,
           is_inside_block := true,
           current_block_name := some n,
           current_block_is_verbatim := isVerbB n,
           last_block_event := "begin",
           pending_anchor := none,
           src_options_stack := none :: s.src_options_stack,
           src_block_options := none }

/-- The parser state after a matching `#+end_<name>` marker: all three
stacks popped and the tracking fields recomputed. -/
def popState (s : OrgState) : OrgState :=
  { s with block_stack := s.block_stack.tail,
           block_verbatim_stack := s.block_verbatim_stack.tail,
           src_options_stack := s.src_options_stack.tail,
           is_inside_verbatim_block := s.block_verbatim_stack.tail.any id,
           is_inside_block := ¬s.block_stack.tail.isEmpty,
           current_block_name := s.block_stack.tail.head?,
           current_block_is_verbatim := s.block_verbatim_stack.tail.headD false,
           last_block_event := "end",
           src_block_options :=
             match s.src_options_stack.tail with
             | [] => none
             | h :: _ => h }

/-- The stack-related fields of the parser state. -/
def stackFields (s : OrgState) :
    List String × List Bool × List (Option (List (String × String))) × Bool :=
  (s.block_stack, s.block_verbatim_stack, s.src_options_stack, s.is_inside_verbatim_block)

/-- The spec's invariant set over the stack fields: the verbatim flag equals
"some stack entry is verbatim", and the three stacks have equal depth. -/
def StackP :
    List String × List Bool × List (Option (List (String × String))) × Bool → Prop
  | (bs, vs, ss, flag) =>
    flag = vs.any id ∧ bs.length = vs.length ∧ bs.length = ss.length

/-- The invariant, as a predicate on states. -/
def StackInv (s : OrgState) : Prop :=
  StackP (stackFields s)

/-- Marker-sequence well-formedness check: simulate the stack; every end
must match the top.  `some st'` returns the remaining stack. -/
def balancedCheckAux : List String → List (Bool × String) → Option (List String)
  | st, [] => some st
  | st, (true, n) :: rest => balancedCheckAux (n :: st) rest
  | st, (false, n) :: rest =>
    match st with
    | [] => none
    | top :: st2 => if top = n then balancedCheckAux st2 rest else none

/-- All marker names are well-behaved and none is `comment` (whose begin/end
lines are intercepted by the comment handler, not the block handler). -/
def okMarkerList (ms : List (Bool × String)) : Bool :=
  ms.all fun bn => okNameB bn.2 && (bn.2 ≠ "comment")

/-- The marker line of one `(is-begin, name)` entry. -/
def lineOf (bn : Bool × String) : String :=
  if bn.1 then beginLine bn.2 else endLine bn.2

/-- Simulation relation of a marker run: the parser's block stack is the
simulated stack, the verbatim stack is its pointwise verbatim image, the
flag is its disjunction, and no comment/drawer capture is active. -/
def MarkerSim (st : List String) (s : OrgState) : Prop :=
  s.block_stack = st ∧ s.block_verbatim_stack = st.map isVerbB ∧
  s.is_inside_verbatim_block = (st.map isVerbB).any id ∧
  s.is_inside_comment = false ∧ s.is_inside_drawer = false

/-- The input lines of claim C4. -/
def c4lines : List String :=
  ["#+TITLE: A", "#+LANGUAGE: de", "Body"]

/-- Is an event a preamble-end event? -/
def isPreambleEndEvent : OrgEvent → Bool
  | .preamble_end _ => true
  | _ => false

/-- Is an event a preamble key/value event? -/
def isPreambleKvEvent : OrgEvent → Bool
  | .preamble_kv _ _ => true
  | _ => false

mutual

/-- If an AST contains a disallowed node or a bad callee, the `ast.walk`
check of `_safe_eval` raises. -/
theorem containsBad_checkExpr :
    ∀ e : PyExpr, containsBad e = true → ∃ m, checkExpr e = Except.error m
  | .binop op l r, h => by
    simp only [containsBad, Bool.or_eq_true, Bool.not_eq_true'] at h
    by_cases hop : isAllowedOp op = true
    · rcases h with (h | hl) | hr
      · exact absurd hop (by simp [h])
      · obtain ⟨m, hm⟩ := containsBad_checkExpr l hl
        exact ⟨m, by rw [checkExpr, if_pos hop, hm]; rfl⟩
      · rcases he : checkExpr l with m | u
        · exact ⟨m, by rw [checkExpr, if_pos hop, he]; rfl⟩
        · obtain ⟨m, hm⟩ := containsBad_checkExpr r hr
          exact ⟨m, by rw [checkExpr, if_pos hop, he, hm]; rfl⟩
    · exact ⟨"Disallowed expression node", by rw [checkExpr, if_neg hop]⟩
  | .unaryop op e, h => by
    simp only [containsBad, Bool.or_eq_true, Bool.not_eq_true'] at h
    by_cases hop : isAllowedUOp op = true
    · rcases h with h | he
      · exact absurd hop (by simp [h])
      · obtain ⟨m, hm⟩ := containsBad_checkExpr e he
        exact ⟨m, by rw [checkExpr, if_pos hop, hm]⟩
    · exact ⟨"Disallowed expression node", by rw [checkExpr, if_neg hop]⟩
  | .const _, h => by simp [containsBad] at h
  | .name _, h => by simp [containsBad] at h
  | .call (.name id) args, h => by
    simp only [containsBad, Bool.or_eq_true] at h
    by_cases hid : id ∈ allowedFuncs
    · have hargs : containsBadArgs args = true := by
        rcases h with (hb | hf) | ha
        · simp [badCallee, hid] at hb
        · simp [containsBad] at hf
        · exact ha
      obtain ⟨m, hm⟩ := containsBadArgs_checkArgs args hargs
      exact ⟨m, by rw [checkExpr, if_pos hid, hm]⟩
    · exact ⟨"Function not allowed: " ++ id, by rw [checkExpr, if_neg hid]⟩
  | .call (.binop ..) _, _ => ⟨"Only simple function calls allowed", by simp [checkExpr]⟩
  | .call (.unaryop ..) _, _ => ⟨"Only simple function calls allowed", by simp [checkExpr]⟩
  | .call (.const _) _, _ => ⟨"Only simple function calls allowed", by simp [checkExpr]⟩
  | .call (.call ..) _, _ => ⟨"Only simple function calls allowed", by simp [checkExpr]⟩
  | .call (.attribute ..) _, _ => ⟨"Only simple function calls allowed", by simp [checkExpr]⟩
  | .call (.subscript ..) _, _ => ⟨"Only simple function calls allowed", by simp [checkExpr]⟩
  | .call (.other _) _, _ => ⟨"Only simple function calls allowed", by simp [checkExpr]⟩
  | .attribute .., _ => ⟨"Disallowed expression node: Attribute", by rw [checkExpr]⟩
  | .subscript .., _ => ⟨"Disallowed expression node: Subscript", by rw [checkExpr]⟩
  | .other kind, _ => ⟨"Disallowed expression node: " ++ kind, by rw [checkExpr]⟩

/-- `containsBad_checkExpr` over an argument list. -/
theorem containsBadArgs_checkArgs :
    ∀ as : PyArgs, containsBadArgs as = true → ∃ m, checkArgs as = Except.error m
  | .nil, h => by simp [containsBadArgs] at h
  | .cons a as, h => by
    simp only [containsBadArgs, Bool.or_eq_true] at h
    by_cases ha : containsBad a = true
    · obtain ⟨m, hm⟩ := containsBad_checkExpr a ha
      exact ⟨m, by rw [checkArgs, hm]; rfl⟩
    · have has : containsBadArgs as = true := by tauto
      rcases he : checkExpr a with m | u
      · exact ⟨m, by rw [checkArgs, he]; rfl⟩
      · obtain ⟨m, hm⟩ := containsBadArgs_checkArgs as has
        exact ⟨m, by rw [checkArgs, he, hm]; rfl⟩

end

/-- C1: if the parsed AST of a formula expression contains any node other
than Expression/BinOp/UnaryOp, the arithmetic operators `+ - * / % **` and
unary `+`/`-`, Constant, Name, Load, or Call — or contains a Call whose
callee is not one of `abs, round, min, max, int, float, sqrt` — then
`_safe_eval` raises before any evaluation happens, and the surrounding
per-formula `try/except` of `_apply_column_formulas_to_table` leaves the
destination cell (and the whole row) unchanged. -/
theorem C1_safe_eval_rejects_disallowed
    (e : PyExpr) (names : List (String × ℚ)) (h : containsBad e = true) :
    (∃ msg, _safe_eval e names = Except.error msg) ∧
    ∀ max_cols dest_col cells,
      applyEvalResult max_cols dest_col cells names (_safe_eval e names) =
        Except.ok (cells, names) := by
  obtain ⟨m, hm⟩ := containsBad_checkExpr e h
  have hse : _safe_eval e names = Except.error m := by
    rw [_safe_eval, hm]; rfl
  exact ⟨⟨m, hse⟩, fun _ _ _ => by rw [hse]; rfl⟩

/-- Witness for `C1_safe_eval_rejects_disallowed`: the attribute access
`c1.real` (AST `Attribute(Name c1, "real")`) is rejected and leaves the row
`["1", "2"]` untouched. -/
theorem C1_safe_eval_rejects_disallowed_witness :
    containsBad (PyExpr.attribute (PyExpr.name "c1") "real") = true ∧
    ((∃ msg, _safe_eval (PyExpr.attribute (PyExpr.name "c1") "real") [("c1", 2)] =
        Except.error msg) ∧
      ∀ max_cols dest_col cells,
        applyEvalResult max_cols dest_col cells [("c1", 2)]
            (_safe_eval (PyExpr.attribute (PyExpr.name "c1") "real") [("c1", 2)]) =
          Except.ok (cells, [("c1", 2)])) :=
  ⟨by decide, C1_safe_eval_rejects_disallowed (PyExpr.attribute (PyExpr.name "c1") "real")
    [("c1", 2)] (by decide)⟩

/-- C2 (failing input): `_apply_column_formulas_to_table` on the single data
row `["1", "2"]` with formula `$3=$1+$2` evaluates `$1+$2` to `3`, skips the
out-of-range write into column 3, and then raises `IndexError` at the
unguarded `names[f"c{dest_col}"] = _coerce_number(cells[dest_col - 1])`
update — the exception reaches the caller, contradicting "never raises". -/
theorem C2_apply_raises_IndexError :
    _apply_column_formulas_to_table [TRow.row ["1", "2"]] ["$3=$1+$2"] =
      Except.error "IndexError: list index out of range" := by
  rfl

/-- C3 counterexample: on the claimed input, the rows are *not* padded to 3
columns (padding uses the maximum observed column count, which is 2), and
the evaluator does not produce any result rows at all — it raises
`IndexError` — so in particular no body row `["1","2","3"]` is produced. -/
theorem C3_counterexample :
    ¬((padRows (maxColsOf c3rows) c3rows).all rowHasThreeCells = true ∧
      ∃ rows, _apply_column_formulas_to_table c3rows ["$3=$1+$2"] = Except.ok rows ∧
        TRow.row ["1", "2", "3"] ∈ rows) :=
  fun h => absurd h.1 (by decide)

/-- C3 amended: with formula `$3=$1+$2` and no third column, the rows are
padded only to the maximum observed column count (2, leaving every row
unchanged); `$1+$2` evaluates to `3` but the destination column 3 is out of
range, so the write is skipped and the unguarded post-write cell read raises
`IndexError` — no body row `["1","2","3"]` is ever produced. -/
theorem C3_amended :
    padRows (maxColsOf c3rows) c3rows = c3rows ∧
    (padRows (maxColsOf c3rows) c3rows).all rowHasThreeCells = false ∧
    _apply_column_formulas_to_table c3rows ["$3=$1+$2"] =
      Except.error "IndexError: list index out of range" := by
  refine ⟨by decide, by decide, ?_⟩
  rfl

/-- The head of a non-empty `dropWhile` result fails the predicate. -/
theorem dropWhile_head_not (p : Char → Bool) :
    ∀ (l : List Char) (c : Char) (rest : List Char),
      l.dropWhile p = c :: rest → p c = false
  | [], c, rest, h => by simp [List.dropWhile] at h
  | a :: l, c, rest, h => by
    by_cases hp : p a
    · rw [List.dropWhile_cons_of_pos hp] at h
      exact dropWhile_head_not p l c rest h
    · rw [List.dropWhile_cons_of_neg hp] at h
      cases h
      simpa using hp

/-- A string with empty `strip()` is all whitespace, so its `lstrip()` is
empty too. -/
theorem dropWhile_nil_of_pyStrip_empty (line : String) (h : pyStrip line = "") :
    line.data.dropWhile isPySpace = [] := by
  have hd : pyStripList line.data = [] := congrArg String.data h
  have h1 : (line.data.dropWhile isPySpace).reverse.dropWhile isPySpace = [] := by
    have h2 := congrArg List.reverse hd
    simpa [pyStripList] using h2
  have h2 : ∀ x ∈ line.data.dropWhile isPySpace, isPySpace x = true := by
    intro x hx
    exact List.dropWhile_eq_nil_iff.mp h1 x (List.mem_reverse.mpr hx)
  cases hm : line.data.dropWhile isPySpace with
  | nil => rfl
  | cons c rest =>
    exfalso
    have hc : isPySpace c = false := dropWhile_head_not isPySpace line.data c rest hm
    have hc2 : isPySpace c = true := h2 c (by rw [hm]; exact List.mem_cons_self c rest)
    rw [hc] at hc2
    exact Bool.false_ne_true hc2

/-- Every character of a string with empty `strip()` is whitespace. -/
theorem all_space_of_pyStrip_empty (line : String) (h : pyStrip line = "") :
    ∀ x ∈ line.data, isPySpace x = true :=
  List.dropWhile_eq_nil_iff.mp (dropWhile_nil_of_pyStrip_empty line h)

/-- On a whitespace-only line no `#+KEY:` directive matches. -/
theorem header_kv_match_blank (line : String) (hb : line.data.dropWhile isPySpace = []) :
    header_kv_match line = none := by
  simp [header_kv_match, hb]

/-- C7 amended, part of the proof: a whitespace-only line leaves every
handler of `parse_org_line` inert while in the preamble. -/
theorem parse_org_line_blank (line : String) (s : OrgState)
    (hstrip : pyStrip line = "") (hp : s.is_in_preamble = true)
    (hc : s.is_inside_comment = false) (hd : s.is_inside_drawer = false) :
    parse_org_line line s = (s, [OrgEvent.line_tokens (tokenize_inline_org_markup line)]) := by
  have hb : line.data.dropWhile isPySpace = [] := dropWhile_nil_of_pyStrip_empty line hstrip
  have hall := all_space_of_pyStrip_empty line hstrip
  have hstars : line.data.takeWhile (· = '*') = [] := by
    cases hl : line.data with
    | nil => rfl
    | cons c rest =>
      have hcs : isPySpace c = true := hall c (by rw [hl]; exact List.mem_cons_self c rest)
      have : ¬(c = '*') := by
        intro hceq
        rw [hceq] at hcs
        simp [isPySpace] at hcs
      simp [List.takeWhile_cons_of_neg, this]
  have e1 : handlePreamble line s = (none, s) := by
    simp [handlePreamble, hstrip, hp]
  have e2 : handleComment line s = (none, s) := by
    simp [handleComment, hc, comment_marker_match, hb, pyLStrip, pyStartsWith, pyLower,
      List.isPrefixOf]
  have e3 : handleDrawer line s = (none, s) := by
    simp [handleDrawer, hd, drawer_begin_match, hb]
  have e4 : handleTable line = none := by
    simp [handleTable, pyLStrip, hb, pyStartsWith, List.isPrefixOf]
  have ekv := header_kv_match_blank line hb
  have e5 : handleTblfm line = none := by simp [handleTblfm, ekv]
  have e6 : handleName line s = (none, s) := by simp [handleName, ekv]
  have e7 : handleCaption line s = (none, s) := by simp [handleCaption, ekv]
  have e8 : handleAttrHtml line s = (none, s) := by simp [handleAttrHtml, ekv]
  have e9 : handleLatexMacro line s = (none, s) := by simp [handleLatexMacro, ekv]
  have e10 : handleHeading line s = (none, s) := by
    simp [handleHeading, heading_match, hstars]
  have e11 : handleBlockMarker line s = (none, s) := by
    simp [handleBlockMarker, block_match, hb]
  have e12 : handleUnordered line = none := by
    simp [handleUnordered, unordered_list_match, hb]
  have e13 : handleOrdered line = none := by
    simp [handleOrdered, ordered_list_match, hb]
  simp [parse_org_line, e1, e2, e3, e4, e5, e6, e7, e8, e9, e10, e11, e12, e13, hc, hd,
    make_line_token_event]

/-- C7 counterexample: the empty line, from a fresh state, does *not* emit
"no events at all" — the unconditional trailing line-tokens event still
fires (with an empty token list). -/
theorem C7_counterexample :
    ¬((parse_org_line "" OrgState.init).2 = [] ∧
      (parse_org_line "" OrgState.init).1.preamble = OrgState.init.preamble) := by
  intro h
  exact absurd h.1 (by decide)

/-- C7 amended: a whitespace-only line processed in the preamble (outside
comment/drawer capture) emits no preamble or classification event — only the
unconditional trailing line-tokens event — and leaves the entire parser
state (in particular the preamble flag and headers) unchanged. -/
theorem C7_amended (line : String) (s : OrgState)
    (hstrip : pyStrip line = "") (hp : s.is_in_preamble = true)
    (hc : s.is_inside_comment = false) (hd : s.is_inside_drawer = false) :
    (parse_org_line line s).1 = s ∧
    (parse_org_line line s).2 = [OrgEvent.line_tokens (tokenize_inline_org_markup line)] := by
  rw [parse_org_line_blank line s hstrip hp hc hd]
  exact ⟨rfl, rfl⟩

/-- Witness for `C7_amended`: the line `"   "` from the fresh state. -/
theorem C7_amended_witness :
    (parse_org_line "   " OrgState.init).1 = OrgState.init ∧
    (parse_org_line "   " OrgState.init).2 =
      [OrgEvent.line_tokens (tokenize_inline_org_markup "   ")] :=
  C7_amended "   " OrgState.init (by decide) (by decide) (by decide) (by decide)

/-- Unpack `okNameB`. -/
theorem okName_facts (n : String) (hok : okNameB n = true) :
    n.data ≠ [] ∧ (∀ c ∈ n.data, isWordChar c = true) ∧
      (∀ c ∈ n.data, pyLowerChar c = c) := by
  unfold okNameB at hok
  simp only [Bool.and_eq_true, List.all_eq_true, Bool.not_eq_true'] at hok
  obtain ⟨h1, h2⟩ := hok
  refine ⟨?_, fun c hc => ((h2 c hc).1), fun c hc => ?_⟩
  · intro hemp
    rw [hemp] at h1
    simp at h1
  · have := (h2 c hc).2
    exact beq_iff_eq.mp this

/-- `isWordChar` implies membership in the `header_kv_re` key class. -/
theorem kvChar_of_word (c : Char) (h : isWordChar c = true) : isKvKeyChar c = true := by
  simp only [isWordChar, Bool.or_eq_true] at h
  simp only [isKvKeyChar, Bool.or_eq_true]
  tauto

/-- `dropCaseInsensitive` succeeds exactly by consuming the pattern, when
lower-casing fixes the input. -/
theorem dropCaseInsensitive_eq :
    ∀ (pat l tail : List Char), dropCaseInsensitive pat l = some tail →
      (∀ c ∈ l, pyLowerChar c = c) → l = pat ++ tail
  | [], l, tail, h, _ => by
    simp only [dropCaseInsensitive, Option.some_inj] at h
    simp [h]
  | _ :: _, [], tail, h, _ => by
    simp [dropCaseInsensitive] at h
  | p :: ps, c :: cs, tail, h, hlow => by
    simp only [dropCaseInsensitive] at h
    by_cases hc : pyLowerChar c = p
    · rw [if_pos hc] at h
      have hrec := dropCaseInsensitive_eq ps cs tail h
        (fun x hx => hlow x (List.mem_cons_of_mem c hx))
      have hcp : c = p := by rw [← hc, hlow c (List.mem_cons_self c cs)]
      rw [List.cons_append, ← hcp, hrec]
    · rw [if_neg hc] at h
      cases h

/-- Clearing an already-clear preamble flag is the identity. -/
theorem setPreambleFalse_eq (s : OrgState) (hp : s.is_in_preamble = false) :
    { s with is_in_preamble := false } = s := by
  cases s
  simp_all

/-- `#+end_<name>` is not a `#+KEY:` line (no colon after the key class). -/
theorem header_kv_match_endLine (n : String) (hok : okNameB n = true) :
    header_kv_match (endLine n) = none := by
  obtain ⟨hne, hword, _⟩ := okName_facts n hok
  have hkvn : ∀ c ∈ n.data, isKvKeyChar c = true := fun c hc => kvChar_of_word c (hword c hc)
  have hdn : n.data.dropWhile isKvKeyChar = [] := List.dropWhile_eq_nil_iff.mpr hkvn
  have e1 : (endLine n).data.dropWhile isPySpace =
      '#' :: '+' :: ('e' :: 'n' :: 'd' :: '_' :: n.data) := rfl
  have e2 : ('e' :: 'n' :: 'd' :: '_' :: n.data).takeWhile isKvKeyChar =
      'e' :: 'n' :: 'd' :: '_' :: n.data.takeWhile isKvKeyChar := rfl
  have e3 : ('e' :: 'n' :: 'd' :: '_' :: n.data).dropWhile isKvKeyChar =
      n.data.dropWhile isKvKeyChar := rfl
  simp [header_kv_match, e1, e2, e3, hdn]

/-- `#+begin_<name>` is not a `#+KEY:` line. -/
theorem header_kv_match_beginLine (n : String) (hok : okNameB n = true) :
    header_kv_match (beginLine n) = none := by
  obtain ⟨hne, hword, _⟩ := okName_facts n hok
  have hkvn : ∀ c ∈ n.data, isKvKeyChar c = true := fun c hc => kvChar_of_word c (hword c hc)
  have hdn : n.data.dropWhile isKvKeyChar = [] := List.dropWhile_eq_nil_iff.mpr hkvn
  have e1 : (beginLine n).data.dropWhile isPySpace =
      '#' :: '+' :: ('b' :: 'e' :: 'g' :: 'i' :: 'n' :: '_' :: n.data) := rfl
  have e2 : ('b' :: 'e' :: 'g' :: 'i' :: 'n' :: '_' :: n.data).takeWhile isKvKeyChar =
      'b' :: 'e' :: 'g' :: 'i' :: 'n' :: '_' :: n.data.takeWhile isKvKeyChar := rfl
  have e3 : ('b' :: 'e' :: 'g' :: 'i' :: 'n' :: '_' :: n.data).dropWhile isKvKeyChar =
      n.data.dropWhile isKvKeyChar := rfl
  simp [header_kv_match, e1, e2, e3, hdn]

/-- `block_re` on `#+end_<name>`. -/
theorem block_match_endLine (n : String) (hok : okNameB n = true) :
    block_match (endLine n) = some (false, n, "") := by
  obtain ⟨hne, hword, hlow⟩ := okName_facts n hok
  have htn : n.data.takeWhile isWordChar = n.data := List.takeWhile_eq_self_iff.mpr hword
  have hdn : n.data.dropWhile isWordChar = [] := List.dropWhile_eq_nil_iff.mpr hword
  have hmap : n.data.map pyLowerChar = n.data := by
    rw [List.map_congr_left hlow]
    simp
  have e1 : (endLine n).data.dropWhile isPySpace =
      '#' :: '+' :: ('e' :: 'n' :: 'd' :: '_' :: n.data) := rfl
  have h1 : dropCaseInsensitive "begin".data ('e' :: 'n' :: 'd' :: '_' :: n.data) = none := rfl
  have h2 : dropCaseInsensitive "end".data ('e' :: 'n' :: 'd' :: '_' :: n.data) =
      some ('_' :: n.data) := rfl
  have hmk : (⟨n.data⟩ : String) = n := rfl
  simp [block_match, e1, h1, h2, htn, hdn, pyLower, hmap, hmk, pyStripList, hne]

/-- `block_re` on `#+begin_<name>`. -/
theorem block_match_beginLine (n : String) (hok : okNameB n = true) :
    block_match (beginLine n) = some (true, n, "") := by
  obtain ⟨hne, hword, hlow⟩ := okName_facts n hok
  have htn : n.data.takeWhile isWordChar = n.data := List.takeWhile_eq_self_iff.mpr hword
  have hdn : n.data.dropWhile isWordChar = [] := List.dropWhile_eq_nil_iff.mpr hword
  have hmap : n.data.map pyLowerChar = n.data := by
    rw [List.map_congr_left hlow]
    simp
  have e1 : (beginLine n).data.dropWhile isPySpace =
      '#' :: '+' :: ('b' :: 'e' :: 'g' :: 'i' :: 'n' :: '_' :: n.data) := rfl
  have h1 : dropCaseInsensitive "begin".data
      ('b' :: 'e' :: 'g' :: 'i' :: 'n' :: '_' :: n.data) = some ('_' :: n.data) := rfl
  have hmk : (⟨n.data⟩ : String) = n := rfl
  simp [block_match, e1, h1, htn, hdn, pyLower, hmap, hmk, pyStripList, hne]

/-- Neither comment marker fires on `#+end_<name>` when the name is not
`comment`. -/
theorem comment_marker_endLine (n : String) (hok : okNameB n = true)
    (hnc : n ≠ "comment") :
    comment_marker_match "begin_comment" (endLine n) = false ∧
    comment_marker_match "end_comment" (endLine n) = false := by
  obtain ⟨hne, hword, hlow⟩ := okName_facts n hok
  constructor
  · rfl
  · have hstep : comment_marker_match "end_comment" (endLine n) =
        (match dropCaseInsensitive "comment".data n.data with
         | some [] => true
         | some (c :: _) => ¬isWordChar c
         | none => false) := rfl
    rw [hstep]
    rcases hcase : dropCaseInsensitive "comment".data n.data with _ | tail
    · rfl
    · have heq := dropCaseInsensitive_eq "comment".data n.data tail hcase hlow
      cases tail with
      | nil =>
        exfalso
        apply hnc
        rcases n with ⟨l⟩
        simp only [List.append_nil] at heq
        simp_all [String.ext_iff]
      | cons c t2 =>
        have hc : c ∈ n.data := by
          rw [heq]
          exact List.mem_append_right _ (List.mem_cons_self c t2)
        simp [hword c hc]

/-- Neither comment marker fires on `#+begin_<name>` when the name is not
`comment`. -/
theorem comment_marker_beginLine (n : String) (hok : okNameB n = true)
    (hnc : n ≠ "comment") :
    comment_marker_match "begin_comment" (beginLine n) = false ∧
    comment_marker_match "end_comment" (beginLine n) = false := by
  obtain ⟨hne, hword, hlow⟩ := okName_facts n hok
  constructor
  · have hstep : comment_marker_match "begin_comment" (beginLine n) =
        (match dropCaseInsensitive "comment".data n.data with
         | some [] => true
         | some (c :: _) => ¬isWordChar c
         | none => false) := rfl
    rw [hstep]
    rcases hcase : dropCaseInsensitive "comment".data n.data with _ | tail
    · rfl
    · have heq := dropCaseInsensitive_eq "comment".data n.data tail hcase hlow
      cases tail with
      | nil =>
        exfalso
        apply hnc
        rcases n with ⟨l⟩
        simp only [List.append_nil] at heq
        simp_all [String.ext_iff]
      | cons c t2 =>
        have hc : c ∈ n.data := by
          rw [heq]
          exact List.mem_append_right _ (List.mem_cons_self c t2)
        simp [hword c hc]
  · rfl

/-- `handleBlockMarker` on a bare `#+begin_<name>` marker pushes. -/
theorem handleBlockMarker_beginLine (n : String) (s : OrgState) (hok : okNameB n = true) :
    (handleBlockMarker (beginLine n) s).2 = pushState n s := by
  have hparse : parse_src_block_options "" = [] := rfl
  by_cases hsrc : n = "src"
  · subst hsrc
    simp [handleBlockMarker, block_match_beginLine _ hok, pushState, hparse, isVerbB]
  · simp [handleBlockMarker, block_match_beginLine _ hok, pushState, hsrc, isVerbB]

/-- `handleBlockMarker` on an orphan `#+end_<name>` (empty stack). -/
theorem handleBlockMarker_endLine_orphan (n : String) (s : OrgState)
    (hok : okNameB n = true) (hstack : s.block_stack = []) :
    handleBlockMarker (endLine n) s = (some (.block_end_orphan n), s) := by
  simp [handleBlockMarker, block_match_endLine _ hok, hstack]

/-- `handleBlockMarker` on a mismatched `#+end_<name>` (different top). -/
theorem handleBlockMarker_endLine_mismatch (n top : String) (rest : List String)
    (s : OrgState) (hok : okNameB n = true) (hstack : s.block_stack = top :: rest)
    (hne : top ≠ n) :
    handleBlockMarker (endLine n) s = (some (.block_end_mismatch n top), s) := by
  simp [handleBlockMarker, block_match_endLine _ hok, hstack, hne]

/-- `handleBlockMarker` on a matching `#+end_<name>` pops. -/
theorem handleBlockMarker_endLine_pop (n : String) (rest : List String)
    (s : OrgState) (hok : okNameB n = true) (hstack : s.block_stack = n :: rest) :
    (handleBlockMarker (endLine n) s).2 = popState s := by
  by_cases hsrc : n = "src"
  · subst hsrc
    simp [handleBlockMarker, block_match_endLine _ hok, hstack, popState]
  · simp [handleBlockMarker, block_match_endLine _ hok, hstack, popState, hsrc]

/-- `parse_org_line` on a line that matches only the block-marker handler:
the optional preamble-end event, the block event, the trailing line-tokens
event, and the block handler's state (with the preamble over). -/
theorem parse_org_line_marker (line : String) (s : OrgState)
    (hkv : header_kv_match line = none)
    (hcb : comment_marker_match "begin_comment" line = false)
    (hce : comment_marker_match "end_comment" line = false)
    (hsharp : pyStartsWith (pyLower (pyLStrip line)) "#+" = true)
    (hdb : drawer_begin_match line = none)
    (htb : pyStartsWith (pyLStrip line) "|" = false)
    (hhm : heading_match line = none)
    (hul : unordered_list_match line = none)
    (hol : ordered_list_match line = none)
    (hblank : ¬(pyStrip line = ""))
    (hc : s.is_inside_comment = false) (hd : s.is_inside_drawer = false) :
    parse_org_line line s =
      ((handleBlockMarker line { s with is_in_preamble := false }).2,
       (if s.is_in_preamble then [OrgEvent.preamble_end "first_non_header_content"] else []) ++
       (match (handleBlockMarker line { s with is_in_preamble := false }).1 with
        | some ev => [ev]
        | none => []) ++
       [make_line_token_event line]) := by
  have inert : ∀ t : OrgState, t.is_inside_comment = false → t.is_inside_drawer = false →
      handleComment line t = (none, t) ∧ handleDrawer line t = (none, t) ∧
      handleName line t = (none, t) ∧ handleCaption line t = (none, t) ∧
      handleAttrHtml line t = (none, t) ∧ handleLatexMacro line t = (none, t) ∧
      handleHeading line t = (none, t) := by
    intro t htc htd
    refine ⟨?_, ?_, ?_, ?_, ?_, ?_, ?_⟩
    · simp [handleComment, htc, hcb, hce, hsharp]
    · simp [handleDrawer, htd, hdb]
    · simp [handleName, hkv]
    · simp [handleCaption, hkv]
    · simp [handleAttrHtml, hkv]
    · simp [handleLatexMacro, hkv]
    · simp [handleHeading, hhm]
  have e4 : handleTable line = none := by simp [handleTable, htb]
  have e5 : handleTblfm line = none := by simp [handleTblfm, hkv]
  have e12 : handleUnordered line = none := by simp [handleUnordered, hul]
  have e13 : handleOrdered line = none := by simp [handleOrdered, hol]
  by_cases hp : s.is_in_preamble = true
  · set t := { s with is_in_preamble := false } with ht
    have hpre : handlePreamble line s =
        (some (.preamble_end "first_non_header_content"), t) := by
      rw [ht]
      simp [handlePreamble, hp, hblank, hkv]
    have htc : t.is_inside_comment = false := hc
    have htd : t.is_inside_drawer = false := hd
    obtain ⟨e2, e3, e6, e7, e8, e9, e10⟩ := inert t htc htd
    rcases hbm : (handleBlockMarker line t).1 with _ | ev <;>
      simp [parse_org_line, hpre, e2, e3, e4, e5, e6, e7, e8, e9, e10, e12, e13,
        htc, htd, hp, hbm]
  · have hpf : s.is_in_preamble = false := Bool.not_eq_true _ |>.mp hp
    have hss : { s with is_in_preamble := false } = s := setPreambleFalse_eq s hpf
    have hpre : handlePreamble line s = (none, s) := by
      simp [handlePreamble, hpf]
    obtain ⟨e2, e3, e6, e7, e8, e9, e10⟩ := inert s hc hd
    rw [hss]
    simp [parse_org_line, hpre, e2, e3, e4, e5, e6, e7, e8, e9, e10, e12, e13, hc, hd, hpf]

/-- A line whose first non-space character is not a space survives
`strip()`. -/
theorem pyStrip_ne_of_nonspace_head (l : List Char) (c : Char) (rest : List Char)
    (hd : l.dropWhile isPySpace = c :: rest) (hcs : isPySpace c = false) :
    ¬(pyStrip ⟨l⟩ = "") := by
  intro h
  have hnil : pyStripList l = [] := congrArg String.data h
  unfold pyStripList at hnil
  rw [hd, List.reverse_eq_nil_iff] at hnil
  have hmem : c ∈ (c :: rest).reverse := by
    rw [List.mem_reverse]
    exact List.mem_cons_self c rest
  have := (List.dropWhile_eq_nil_iff.mp hnil) c hmem
  rw [hcs] at this
  cases this

/-- The matchers of the other handlers all fail on `#+end_<name>`, and the
strip/startswith conditions of its `parse_org_line` path hold. -/
theorem endLine_residual (n : String) :
    drawer_begin_match (endLine n) = none ∧
    pyStartsWith (pyLStrip (endLine n)) "|" = false ∧
    heading_match (endLine n) = none ∧
    unordered_list_match (endLine n) = none ∧
    ordered_list_match (endLine n) = none ∧
    pyStartsWith (pyLower (pyLStrip (endLine n))) "#+" = true ∧
    ¬(pyStrip (endLine n) = "") := by
  refine ⟨rfl, rfl, rfl, rfl, rfl, rfl, ?_⟩
  exact pyStrip_ne_of_nonspace_head (endLine n).data '#'
    ('+' :: 'e' :: 'n' :: 'd' :: '_' :: n.data) rfl (by decide)

/-- The matchers of the other handlers all fail on `#+begin_<name>`, and the
strip/startswith conditions of its `parse_org_line` path hold. -/
theorem beginLine_residual (n : String) :
    drawer_begin_match (beginLine n) = none ∧
    pyStartsWith (pyLStrip (beginLine n)) "|" = false ∧
    heading_match (beginLine n) = none ∧
    unordered_list_match (beginLine n) = none ∧
    ordered_list_match (beginLine n) = none ∧
    pyStartsWith (pyLower (pyLStrip (beginLine n))) "#+" = true ∧
    ¬(pyStrip (beginLine n) = "") := by
  refine ⟨rfl, rfl, rfl, rfl, rfl, rfl, ?_⟩
  exact pyStrip_ne_of_nonspace_head (beginLine n).data '#'
    ('+' :: 'b' :: 'e' :: 'g' :: 'i' :: 'n' :: '_' :: n.data) rfl (by decide)

/-- `parse_org_line` on `#+end_<name>` outside the preamble / comment /
drawer: the orphan case (empty stack) and the mismatch case (different
top), both leaving the state untouched. -/
theorem parse_end_marker_ignored (n top : String) (s : OrgState)
    (hok : okNameB n = true) (hnc : n ≠ "comment")
    (hp : s.is_in_preamble = false)
    (hc : s.is_inside_comment = false) (hd : s.is_inside_drawer = false) :
    (s.block_stack = [] →
      parse_org_line (endLine n) s =
        (s, [OrgEvent.block_end_orphan n, make_line_token_event (endLine n)])) ∧
    (∀ rest, s.block_stack = top :: rest → top ≠ n →
      parse_org_line (endLine n) s =
        (s, [OrgEvent.block_end_mismatch n top, make_line_token_event (endLine n)])) := by
  obtain ⟨hdb, htb, hhm, hul, hol, hsharp, hblank⟩ := endLine_residual n
  obtain ⟨hcb, hce⟩ := comment_marker_endLine n hok hnc
  have hkv := header_kv_match_endLine n hok
  have hm := parse_org_line_marker (endLine n) s hkv hcb hce hsharp hdb htb hhm hul hol
    hblank hc hd
  rw [setPreambleFalse_eq s hp, hp] at hm
  constructor
  · intro hstack
    rw [handleBlockMarker_endLine_orphan n s hok hstack] at hm
    simpa using hm
  · intro rest hstack hne
    rw [handleBlockMarker_endLine_mismatch n top rest s hok hstack hne] at hm
    simpa using hm

/-- C6 counterexample: processing the orphan closer `#+end_src` from the
fresh state does *not* leave every field of the parser state unchanged (the
preamble flag is cleared). -/
theorem C6_counterexample :
    ¬((parse_org_line "#+end_src" OrgState.init).1 = OrgState.init) := by
  decide

/-- C6 amended: outside the preamble (and outside comment/drawer capture),
an end-block marker with an empty stack emits the orphan block-end event
and leaves the whole state unchanged, and an end-block marker whose name
differs from the top of the stack emits the mismatch block-end event
(carrying the expected name) without popping, also leaving the whole state
unchanged; in both cases the unconditional trailing line-tokens event
follows. -/
theorem C6_amended (n top : String) (s : OrgState)
    (hok : okNameB n = true) (hnc : n ≠ "comment")
    (hp : s.is_in_preamble = false)
    (hc : s.is_inside_comment = false) (hd : s.is_inside_drawer = false) :
    (s.block_stack = [] →
      parse_org_line (endLine n) s =
        (s, [OrgEvent.block_end_orphan n, make_line_token_event (endLine n)])) ∧
    (∀ rest, s.block_stack = top :: rest → top ≠ n →
      parse_org_line (endLine n) s =
        (s, [OrgEvent.block_end_mismatch n top, make_line_token_event (endLine n)])) :=
  parse_end_marker_ignored n top s hok hnc hp hc hd

/-- Witness for `C6_amended`: the closer `#+end_src` against an empty stack
and against a stack whose top is `quote`. -/
theorem C6_amended_witness :
    parse_org_line (endLine "src") { OrgState.init with is_in_preamble := false } =
      ({ OrgState.init with is_in_preamble := false },
       [OrgEvent.block_end_orphan "src", make_line_token_event (endLine "src")]) ∧
    parse_org_line (endLine "src")
        { OrgState.init with is_in_preamble := false, block_stack := ["quote"] } =
      ({ OrgState.init with is_in_preamble := false, block_stack := ["quote"] },
       [OrgEvent.block_end_mismatch "src" "quote", make_line_token_event (endLine "src")]) :=
  ⟨(C6_amended "src" "quote" { OrgState.init with is_in_preamble := false }
      (by decide) (by decide) rfl rfl rfl).1 rfl,
   (C6_amended "src" "quote"
      { OrgState.init with is_in_preamble := false, block_stack := ["quote"] }
      (by decide) (by decide) rfl rfl rfl).2 [] rfl (by decide)⟩

/-- `_handle_preamble_if_applicable` never touches the stack fields. -/
theorem stackFields_handlePreamble (line : String) (s : OrgState) :
    stackFields (handlePreamble line s).2 = stackFields s := by
  unfold handlePreamble
  dsimp only
  repeat' split
  all_goals rfl

/-- `_handle_comment_if_present` never touches the stack fields. -/
theorem stackFields_handleComment (line : String) (s : OrgState) :
    stackFields (handleComment line s).2 = stackFields s := by
  unfold handleComment
  dsimp only
  repeat' split
  all_goals rfl

/-- `_handle_drawer_if_present` never touches the stack fields. -/
theorem stackFields_handleDrawer (line : String) (s : OrgState) :
    stackFields (handleDrawer line s).2 = stackFields s := by
  unfold handleDrawer
  repeat' split
  all_goals rfl

/-- `_handle_name_keyword_if_present` never touches the stack fields. -/
theorem stackFields_handleName (line : String) (s : OrgState) :
    stackFields (handleName line s).2 = stackFields s := by
  unfold handleName
  dsimp only
  repeat' split
  all_goals rfl

/-- `_handle_caption_keyword_if_present` never touches the stack fields. -/
theorem stackFields_handleCaption (line : String) (s : OrgState) :
    stackFields (handleCaption line s).2 = stackFields s := by
  unfold handleCaption
  dsimp only
  repeat' split
  all_goals rfl

/-- `_handle_attr_html_keyword_if_present` never touches the stack fields. -/
theorem stackFields_handleAttrHtml (line : String) (s : OrgState) :
    stackFields (handleAttrHtml line s).2 = stackFields s := by
  unfold handleAttrHtml
  dsimp only
  repeat' split
  all_goals rfl

/-- `_handle_latex_macro_keyword_if_present` never touches the stack
fields. -/
theorem stackFields_handleLatexMacro (line : String) (s : OrgState) :
    stackFields (handleLatexMacro line s).2 = stackFields s := by
  unfold handleLatexMacro
  dsimp only
  repeat' split
  all_goals rfl

/-- `_handle_section_heading_if_present` never touches the stack fields. -/
theorem stackFields_handleHeading (line : String) (s : OrgState) :
    stackFields (handleHeading line s).2 = stackFields s := by
  unfold handleHeading
  dsimp only
  repeat' split
  all_goals rfl

/-- `_handle_block_marker_if_present` preserves the stack invariant: a push
extends all three stacks and recomputes the flag from the new verbatim
stack, ignored closers change nothing, and a matching closer pops all
three stacks and recomputes the flag. -/
theorem stackInv_handleBlockMarker (line : String) (s : OrgState) (h : StackInv s) :
    StackInv (handleBlockMarker line s).2 := by
  obtain ⟨hf, hlv, hls⟩ := h
  unfold handleBlockMarker
  repeat' split
  all_goals
    simp_all [StackInv, StackP, stackFields, List.length_tail]

/-- One `parse_org_line` call preserves the stack invariant: only the block
handler writes the stack fields, and it preserves the invariant. -/
theorem stackInv_parse_org_line (line : String) (s : OrgState) (h : StackInv s) :
    StackInv (parse_org_line line s).1 := by
  have pres : ∀ (t : OrgState) (u : OrgState), stackFields u = stackFields t →
      StackInv t → StackInv u := by
    intro t u hu ht
    unfold StackInv
    rw [hu]
    exact ht
  have h1 : StackInv (handlePreamble line s).2 :=
    pres _ _ (stackFields_handlePreamble line s) h
  have h2 : StackInv (handleComment line (handlePreamble line s).2).2 :=
    pres _ _ (stackFields_handleComment line _) h1
  have h3 : StackInv (handleDrawer line (handleComment line (handlePreamble line s).2).2).2 :=
    pres _ _ (stackFields_handleDrawer line _) h2
  have h4 : StackInv (handleName line
      (handleDrawer line (handleComment line (handlePreamble line s).2).2).2).2 :=
    pres _ _ (stackFields_handleName line _) h3
  have h5 : StackInv (handleCaption line (handleName line
      (handleDrawer line (handleComment line (handlePreamble line s).2).2).2).2).2 :=
    pres _ _ (stackFields_handleCaption line _) h4
  have h6 : StackInv (handleAttrHtml line (handleCaption line (handleName line
      (handleDrawer line (handleComment line (handlePreamble line s).2).2).2).2).2).2 :=
    pres _ _ (stackFields_handleAttrHtml line _) h5
  have h7 : StackInv (handleLatexMacro line (handleAttrHtml line (handleCaption line
      (handleName line (handleDrawer line
        (handleComment line (handlePreamble line s).2).2).2).2).2).2).2 :=
    pres _ _ (stackFields_handleLatexMacro line _) h6
  have h8 : StackInv (handleHeading line (handleLatexMacro line (handleAttrHtml line
      (handleCaption line (handleName line (handleDrawer line
        (handleComment line (handlePreamble line s).2).2).2).2).2).2).2).2 :=
    pres _ _ (stackFields_handleHeading line _) h7
  have h9 : StackInv (handleBlockMarker line (handleHeading line (handleLatexMacro line
      (handleAttrHtml line (handleCaption line (handleName line (handleDrawer line
        (handleComment line (handlePreamble line s).2).2).2).2).2).2).2).2).2 :=
    stackInv_handleBlockMarker line _ h8
  simp only [parse_org_line]
  repeat' split
  all_goals assumption

/-- The stack invariant holds along any fold of `parse_org_line`. -/
theorem stackInv_processLines (lines : List String) (s : OrgState) (h : StackInv s) :
    StackInv (processLines lines s) := by
  induction lines generalizing s with
  | nil => exact h
  | cons l rest ih => exact ih _ (stackInv_parse_org_line l s h)

/-- A `#+begin_<name>` marker carries the simulation one push forward. -/
theorem markerStep_push (n : String) (st : List String) (s : OrgState)
    (hok : okNameB n = true) (hnc : n ≠ "comment") (hsim : MarkerSim st s) :
    MarkerSim (n :: st) (parse_org_line (beginLine n) s).1 := by
  obtain ⟨hbs, hvs, hflag, hc, hd⟩ := hsim
  obtain ⟨hdb, htb, hhm, hul, hol, hsharp, hblank⟩ := beginLine_residual n
  obtain ⟨hcb, hce⟩ := comment_marker_beginLine n hok hnc
  have hkv := header_kv_match_beginLine n hok
  have hm := parse_org_line_marker (beginLine n) s hkv hcb hce hsharp hdb htb hhm hul hol
    hblank hc hd
  have h1 : (parse_org_line (beginLine n) s).1 =
      (handleBlockMarker (beginLine n) { s with is_in_preamble := false }).2 := by
    rw [hm]
  rw [h1, handleBlockMarker_beginLine n _ hok]
  refine ⟨?_, ?_, ?_, ?_, ?_⟩ <;> simp [pushState, hbs, hvs, hflag, hc, hd]

/-- A matching `#+end_<name>` marker carries the simulation one pop
forward. -/
theorem markerStep_pop (n : String) (st2 : List String) (s : OrgState)
    (hok : okNameB n = true) (hnc : n ≠ "comment") (hsim : MarkerSim (n :: st2) s) :
    MarkerSim st2 (parse_org_line (endLine n) s).1 := by
  obtain ⟨hbs, hvs, hflag, hc, hd⟩ := hsim
  obtain ⟨hdb, htb, hhm, hul, hol, hsharp, hblank⟩ := endLine_residual n
  obtain ⟨hcb, hce⟩ := comment_marker_endLine n hok hnc
  have hkv := header_kv_match_endLine n hok
  have hm := parse_org_line_marker (endLine n) s hkv hcb hce hsharp hdb htb hhm hul hol
    hblank hc hd
  have h1 : (parse_org_line (endLine n) s).1 =
      (handleBlockMarker (endLine n) { s with is_in_preamble := false }).2 := by
    rw [hm]
  have hbs' : ({ s with is_in_preamble := false } : OrgState).block_stack = n :: st2 := hbs
  rw [h1, handleBlockMarker_endLine_pop n st2 _ hok hbs']
  refine ⟨?_, ?_, ?_, ?_, ?_⟩ <;> simp [popState, hbs, hvs, hflag, hc, hd]

/-- A well-formed marker run drives the simulated stack from `st` to the
remaining stack of the balance check. -/
theorem markerRun (ms : List (Bool × String)) :
    ∀ (st : List String) (s : OrgState) (st2 : List String),
      okMarkerList ms = true → MarkerSim st s →
      balancedCheckAux st ms = some st2 →
      MarkerSim st2 (processLines (ms.map lineOf) s) := by
  induction ms with
  | nil =>
    intro st s st2 _ hsim hbal
    simp only [balancedCheckAux, Option.some_inj] at hbal
    subst hbal
    exact hsim
  | cons m rest ih =>
    intro st s st2 hok hsim hbal
    obtain ⟨b, n⟩ := m
    rw [okMarkerList, List.all_cons, Bool.and_eq_true] at hok
    obtain ⟨hm, hrest⟩ := hok
    rw [Bool.and_eq_true, decide_eq_true_eq] at hm
    obtain ⟨hokn, hnc⟩ := hm
    have hrest' : okMarkerList rest = true := hrest
    cases b with
    | true =>
      simp only [balancedCheckAux] at hbal
      have hstep := markerStep_push n st s hokn hnc hsim
      simp only [List.map_cons, processLines]
      exact ih (n :: st) _ st2 hrest' hstep hbal
    | false =>
      rcases st with _ | ⟨top, st3⟩
      · simp only [balancedCheckAux] at hbal
        cases hbal
      · simp only [balancedCheckAux] at hbal
        by_cases htop : top = n
        · rw [if_pos htop] at hbal
          subst htop
          have hstep := markerStep_pop top st3 s hokn hnc hsim
          simp only [List.map_cons, processLines]
          exact ih st3 _ st2 hrest' hstep hbal
        · rw [if_neg htop] at hbal
          cases hbal

/-- C5: after any line sequence from the fresh state, the verbatim flag
equals "some verbatim-stack entry is true" and the three stacks have equal
depth; and a well-formed begin/end marker sequence (every end matching the
top begin, all begins closed) ends with an empty block stack and a cleared
verbatim flag. -/
theorem C5_stack_invariants (lines : List String) (ms : List (Bool × String))
    (hok : okMarkerList ms = true) (hbal : balancedCheckAux [] ms = some []) :
    ((processLines lines OrgState.init).is_inside_verbatim_block =
        (processLines lines OrgState.init).block_verbatim_stack.any id ∧
      (processLines lines OrgState.init).block_stack.length =
        (processLines lines OrgState.init).block_verbatim_stack.length ∧
      (processLines lines OrgState.init).block_stack.length =
        (processLines lines OrgState.init).src_options_stack.length) ∧
    (processLines (ms.map lineOf) OrgState.init).block_stack = [] ∧
    (processLines (ms.map lineOf) OrgState.init).is_inside_verbatim_block = false := by
  have hinit : StackInv OrgState.init := ⟨rfl, rfl, rfl⟩
  have hsim0 : MarkerSim [] OrgState.init := ⟨rfl, rfl, rfl, rfl, rfl⟩
  have hrun := markerRun ms [] OrgState.init [] hok hsim0 hbal
  refine ⟨stackInv_processLines lines OrgState.init hinit, hrun.1, ?_⟩
  have := hrun.2.2.1
  simpa using this

/-- Witness for `C5_stack_invariants`: a mixed line sequence and a nested
well-formed `src`/`quote` marker run. -/
theorem C5_stack_invariants_witness :
    ((OrgState.is_inside_verbatim_block
          (processLines ["* H", "#+begin_src python", "print(1)"] OrgState.init) =
        List.any (OrgState.block_verbatim_stack
          (processLines ["* H", "#+begin_src python", "print(1)"] OrgState.init)) id ∧
      List.length (OrgState.block_stack
          (processLines ["* H", "#+begin_src python", "print(1)"] OrgState.init)) =
        List.length (OrgState.block_verbatim_stack
          (processLines ["* H", "#+begin_src python", "print(1)"] OrgState.init)) ∧
      List.length (OrgState.block_stack
          (processLines ["* H", "#+begin_src python", "print(1)"] OrgState.init)) =
        List.length (OrgState.src_options_stack
          (processLines ["* H", "#+begin_src python", "print(1)"] OrgState.init))) ∧
    OrgState.block_stack (processLines ([(true, "src"), (true, "quote"), (false, "quote"),
        (false, "src")].map lineOf) OrgState.init) = [] ∧
    OrgState.is_inside_verbatim_block (processLines ([(true, "src"), (true, "quote"),
        (false, "quote"), (false, "src")].map lineOf) OrgState.init) = false) :=
  C5_stack_invariants ["* H", "#+begin_src python", "print(1)"]
    [(true, "src"), (true, "quote"), (false, "quote"), (false, "src")]
    (by decide) (by decide)

/-- Prefix extraction of `take` at the append point. -/
theorem take_len_append (m t : List Char) : (m ++ t).take m.length = m := by
  induction m with
  | nil => rfl
  | cons c m' ih => simp [ih]

/-- Suffix extraction of `drop` at the append point. -/
theorem drop_len_append (m t : List Char) : (m ++ t).drop m.length = t := by
  induction m with
  | nil => rfl
  | cons c m' ih => simp [ih]

/-- `take` through a `$$` closer. -/
theorem take_dd (m q : List Char) :
    (m ++ '$' :: '$' :: q).take (m.length + 2) = m ++ ['$', '$'] := by
  have h : m ++ '$' :: '$' :: q = (m ++ ['$', '$']) ++ q := by simp
  have h2 : m.length + 2 = (m ++ ['$', '$']).length := by simp
  rw [h, h2, take_len_append]

/-- `drop` through a `$$` closer. -/
theorem drop_dd (m q : List Char) :
    (m ++ '$' :: '$' :: q).drop (m.length + 2) = q := by
  have h : m ++ '$' :: '$' :: q = (m ++ ['$', '$']) ++ q := by simp
  have h2 : m.length + 2 = (m ++ ['$', '$']).length := by simp
  rw [h, h2, drop_len_append]

/-- `drop` through a `$` closer. -/
theorem drop_d (m q : List Char) : (m ++ '$' :: q).drop (m.length + 1) = q := by
  have h : m ++ '$' :: q = (m ++ ['$']) ++ q := by simp
  have h2 : m.length + 1 = (m ++ ['$']).length := by simp
  rw [h, h2, drop_len_append]

/-- `text.find` locates the first `$` just past a dollar-free prefix. -/
theorem findChar_append_dollar (m q : List Char) (hm : '$' ∉ m) :
    findChar '$' (m ++ '$' :: q) = some m.length := by
  induction m with
  | nil => simp [findChar]
  | cons c m' ih =>
    have hc : c ≠ '$' := fun h => hm (h ▸ List.mem_cons_self c m')
    have hm' : '$' ∉ m' := fun h => hm (List.mem_cons_of_mem c h)
    simp [findChar, hc, ih hm']

/-- `text.find` fails on a dollar-free list. -/
theorem findChar_dollar_free (m : List Char) (hm : '$' ∉ m) :
    findChar '$' m = none := by
  induction m with
  | nil => rfl
  | cons c m' ih =>
    have hc : c ≠ '$' := fun h => hm (h ▸ List.mem_cons_self c m')
    have hm' : '$' ∉ m' := fun h => hm (List.mem_cons_of_mem c h)
    simp [findChar, hc, ih hm']

/-- `text.find("$$")` locates the closer just past a dollar-free inner
text. -/
theorem findPair_dollars (m q : List Char) (hm : '$' ∉ m) :
    findPair '$' '$' (m ++ '$' :: '$' :: q) = some m.length := by
  induction m with
  | nil => simp [findPair]
  | cons c m' ih =>
    have hc : c ≠ '$' := fun h => hm (h ▸ List.mem_cons_self c m')
    have hm' : '$' ∉ m' := fun h => hm (List.mem_cons_of_mem c h)
    rcases hm2 : m' ++ '$' :: '$' :: q with _ | ⟨y, t⟩
    · cases m' <;> simp at hm2
    · have hrec := ih hm'
      rw [hm2] at hrec
      rw [List.cons_append, hm2]
      simp [findPair, hc, hrec]

/-- The single-`$` branch finds a math span when the inner text is
dollar-free with non-whitespace content. -/
theorem singleDollarMath_found (m q : List Char) (hm : '$' ∉ m)
    (hns : ¬(pyStripList m = [])) :
    singleDollarMath? (m ++ '$' :: q) = some (m, m.length) := by
  have hfalse : (pyStripList m).isEmpty = false := by
    cases hpm : pyStripList m with
    | nil => exact absurd hpm hns
    | cons a t => rfl
  unfold singleDollarMath?
  rw [findChar_append_dollar m q hm]
  simp [take_len_append, hfalse]

/-- The single-`$` branch falls back on a whitespace-only inner text. -/
theorem singleDollarMath_ws (m q : List Char) (hm : '$' ∉ m)
    (hws : pyStripList m = []) :
    singleDollarMath? (m ++ '$' :: q) = none := by
  unfold singleDollarMath?
  rw [findChar_append_dollar m q hm]
  simp [take_len_append, hws]

/-- The single-`$` branch falls back when no closing `$` exists. -/
theorem singleDollarMath_unmatched (m : List Char) (hm : '$' ∉ m) :
    singleDollarMath? m = none := by
  unfold singleDollarMath?
  rw [findChar_dollar_free m hm]

/-- A terminated `$$ … $$` span is appended whole to the plaintext
buffer. -/
theorem tokLoop_display_math (fuel : ℕ) (prev : Option Char) (buf m q : List Char)
    (hm : '$' ∉ m) :
    tokLoop (fuel + 1) prev buf ('$' :: '$' :: (m ++ '$' :: '$' :: q)) =
      tokLoop fuel (some '$') (buf ++ '$' :: '$' :: (m ++ ['$', '$'])) q := by
  rw [tokLoop.eq_4, findPair_dollars m q hm]
  simp [take_dd, drop_dd]

/-- A `$ … $` span with dollar-free non-whitespace inner text flushes the
buffer and emits one `math_inline` token without the delimiters. -/
theorem tokLoop_math_inline (fuel : ℕ) (prev : Option Char) (buf m q : List Char)
    (hm : '$' ∉ m) (hne : m ≠ []) (hns : ¬(pyStripList m = [])) :
    tokLoop (fuel + 1) prev buf ('$' :: (m ++ '$' :: q)) =
      flushBuf buf (("math_inline", ⟨m⟩) :: tokLoop fuel (some '$') [] q) := by
  have hnogo : ∀ r1 : List Char, m ++ '$' :: q = '$' :: r1 → False := by
    intro r1 h
    cases m with
    | nil => exact hne rfl
    | cons c m' =>
      rw [List.cons_append] at h
      injection h with h1 _
      exact hm (h1 ▸ List.mem_cons_self c m')
  rw [tokLoop.eq_5 prev buf fuel _ hnogo, singleDollarMath_found m q hm hns]
  simp [drop_d]

/-- A `$` with no closing `$` in the rest of the line goes to the plaintext
buffer as a literal character. -/
theorem tokLoop_dollar_unmatched (fuel : ℕ) (prev : Option Char) (buf m : List Char)
    (hm : '$' ∉ m) :
    tokLoop (fuel + 1) prev buf ('$' :: m) =
      tokLoop fuel (some '$') (buf ++ ['$']) m := by
  have hnogo : ∀ r1 : List Char, m = '$' :: r1 → False := by
    intro r1 h
    exact hm (h ▸ List.mem_cons_self '$' r1)
  rw [tokLoop.eq_5 prev buf fuel m hnogo, singleDollarMath_unmatched m hm]

/-- A `$ … $` span whose inner text is whitespace-only goes to the
plaintext buffer as a literal `$`. -/
theorem tokLoop_dollar_ws (fuel : ℕ) (prev : Option Char) (buf m q : List Char)
    (hm : '$' ∉ m) (hne : m ≠ []) (hws : pyStripList m = []) :
    tokLoop (fuel + 1) prev buf ('$' :: (m ++ '$' :: q)) =
      tokLoop fuel (some '$') (buf ++ ['$']) (m ++ '$' :: q) := by
  have hnogo : ∀ r1 : List Char, m ++ '$' :: q = '$' :: r1 → False := by
    intro r1 h
    cases m with
    | nil => exact hne rfl
    | cons c m' =>
      rw [List.cons_append] at h
      injection h with h1 _
      exact hm (h1 ▸ List.mem_cons_self c m')
  rw [tokLoop.eq_5 prev buf fuel _ hnogo, singleDollarMath_ws m q hm hws]

/-- C8: in `tokenize_inline_org_markup`, with a dollar-free inner text `m`:
a terminated `$$ … $$` span is buffered whole as plaintext (and a line that
is exactly such a span yields a single plaintext token, never a math
token); a `$ … $` span with non-whitespace inner text flushes the buffer
and becomes one `math_inline` token carrying the inner text without the
delimiters (a line that is exactly such a span yields exactly that token);
and a `$` with no closing `$`, or with whitespace-only inner text,
contributes a literal `$` to the plaintext buffer. -/
theorem C8_dollar_spans (m q buf : List Char) (prev : Option Char) (fuel : ℕ)
    (hm : '$' ∉ m) :
    (tokLoop (fuel + 1) prev buf ('$' :: '$' :: (m ++ '$' :: '$' :: q)) =
      tokLoop fuel (some '$') (buf ++ '$' :: '$' :: (m ++ ['$', '$'])) q) ∧
    (tokenize_inline_org_markup ⟨'$' :: '$' :: (m ++ ['$', '$'])⟩ =
      [("plaintext", ⟨'$' :: '$' :: (m ++ ['$', '$'])⟩)]) ∧
    (¬(pyStripList m = []) →
      (tokLoop (fuel + 1) prev buf ('$' :: (m ++ '$' :: q)) =
        flushBuf buf (("math_inline", ⟨m⟩) :: tokLoop fuel (some '$') [] q)) ∧
      tokenize_inline_org_markup ⟨'$' :: (m ++ ['$'])⟩ = [("math_inline", ⟨m⟩)]) ∧
    (tokLoop (fuel + 1) prev buf ('$' :: m) =
      tokLoop fuel (some '$') (buf ++ ['$']) m) ∧
    (m ≠ [] → pyStripList m = [] →
      tokLoop (fuel + 1) prev buf ('$' :: (m ++ '$' :: q)) =
        tokLoop fuel (some '$') (buf ++ ['$']) (m ++ '$' :: q)) := by
  refine ⟨tokLoop_display_math fuel prev buf m q hm, ?_, ?_, ?_, ?_⟩
  · unfold tokenize_inline_org_markup
    have hlen : (String.mk ('$' :: '$' :: (m ++ ['$', '$']))).data.length =
        (m.length + 3) + 1 := by
      simp
    rw [hlen]
    have hstep := tokLoop_display_math (m.length + 3) none [] m [] hm
    rw [show (String.mk ('$' :: '$' :: (m ++ ['$', '$']))).data =
      '$' :: '$' :: (m ++ '$' :: '$' :: ([] : List Char)) from by simp]
    rw [hstep]
    rw [tokLoop.eq_1]
    simp [flushBuf]
  · intro hns
    have hne : m ≠ [] := by
      intro h
      rw [h] at hns
      exact hns rfl
    refine ⟨tokLoop_math_inline fuel prev buf m q hm hne hns, ?_⟩
    unfold tokenize_inline_org_markup
    have hlen : (String.mk ('$' :: (m ++ ['$']))).data.length = (m.length + 1) + 1 := by
      simp
    rw [hlen]
    have hstep := tokLoop_math_inline (m.length + 1) none [] m [] hm hne hns
    rw [show (String.mk ('$' :: (m ++ ['$']))).data =
      '$' :: (m ++ '$' :: ([] : List Char)) from by simp]
    rw [hstep]
    rw [tokLoop.eq_1]
    simp [flushBuf]
  · exact tokLoop_dollar_unmatched fuel prev buf m hm
  · intro hne hws
    exact tokLoop_dollar_ws fuel prev buf m q hm hne hws

/-- Witness for `C8_dollar_spans`: inner text `"x "`, continuation `"z"`,
buffer `"p"`. -/
theorem C8_dollar_spans_witness :
    (tokLoop (7 + 1) none ['p'] ('$' :: '$' :: (['x', ' '] ++ '$' :: '$' :: ['z'])) =
      tokLoop 7 (some '$') (['p'] ++ '$' :: '$' :: (['x', ' '] ++ ['$', '$'])) ['z']) ∧
    (tokenize_inline_org_markup ⟨'$' :: '$' :: (['x', ' '] ++ ['$', '$'])⟩ =
      [("plaintext", ⟨'$' :: '$' :: (['x', ' '] ++ ['$', '$'])⟩)]) ∧
    (¬(pyStripList ['x', ' '] = []) →
      (tokLoop (7 + 1) none ['p'] ('$' :: (['x', ' '] ++ '$' :: ['z'])) =
        flushBuf ['p']
          (("math_inline", ⟨['x', ' ']⟩) :: tokLoop 7 (some '$') [] ['z'])) ∧
      tokenize_inline_org_markup ⟨'$' :: (['x', ' '] ++ ['$'])⟩ =
        [("math_inline", ⟨['x', ' ']⟩)]) ∧
    (tokLoop (7 + 1) none ['p'] ('$' :: ['x', ' ']) =
      tokLoop 7 (some '$') (['p'] ++ ['$']) ['x', ' ']) ∧
    (['x', ' '] ≠ [] → pyStripList ['x', ' '] = [] →
      tokLoop (7 + 1) none ['p'] ('$' :: (['x', ' '] ++ '$' :: ['z'])) =
        tokLoop 7 (some '$') (['p'] ++ ['$']) (['x', ' '] ++ '$' :: ['z'])) :=
  C8_dollar_spans ['x', ' '] ['z'] ['p'] none 7 (by decide)

/-- C4 counterexample: for the input `#+TITLE: A` / `#+LANGUAGE: de` /
`Body` from the fresh state, it is *not* the case that the preamble ends at
the `LANGUAGE` line with headers exactly `{title: A}` — the parser emits no
preamble-end event on line 2 and it stores the `language` header. -/
theorem C4_counterexample :
    ¬((((parseAll c4lines OrgState.init).2.getD 1 []).any isPreambleEndEvent = true) ∧
      (processLines c4lines OrgState.init).preamble.headers = [("title", "A")]) := by
  decide

/-- C4 amended: the parser stores *every* `#+KEY:` directive while in the
preamble, so the headers are `{title: A, language: de}` in insertion order;
the preamble-end event fires at the first non-directive line `Body`
(line 3), not at the `LANGUAGE` line; the skip set
`{title, author, date, options}` lives in the include resolver of
`org_reader.py`, where `#+TITLE:` is skipped but `#+LANGUAGE:` is first
content. -/
theorem C4_amended :
    (processLines c4lines OrgState.init).preamble.headers =
      [("title", "A"), ("language", "de")] ∧
    ((parseAll c4lines OrgState.init).2.getD 1 []).any isPreambleEndEvent = false ∧
    ((parseAll c4lines OrgState.init).2.getD 2 []).any isPreambleEndEvent = true ∧
    should_skip_header_line "#+TITLE: A" = true ∧
    should_skip_header_line "#+LANGUAGE: de" = false ∧
    preamble_decision "#+TITLE: A" = (true, true) ∧
    preamble_decision "#+LANGUAGE: de" = (false, false) := by
  decide

/-- C9 counterexample: the hashed payload is *not* "macro preamble, newline,
math source" (the separator is `\n%%MATH%%\n`), and a one-character change
to the macro preamble (a trailing blank, removed by `strip()`) yields the
*same* payload, hence the same cache key. -/
theorem C9_counterexample :
    ¬(payload_for_hash "m" "s" = payload_spec "m" "s") ∧
    ("m" ≠ "m " ∧ payload_for_hash "m" "s" = payload_for_hash "m " "s") := by
  refine ⟨by decide, by decide, ?_⟩
  rfl

/-- C9 amended: for fixed `M` and `S` the hashed payload (hence the cache
key) is deterministic and equals `strip(M) ++ "\n%%MATH%%\n" ++ S`; it
differs whenever the math source changes, and whenever the *stripped* macro
preamble changes — changes confined to the surrounding whitespace of the
macro preamble do not change the key. -/
theorem C9_amended :
    (∀ M S : String, payload_for_hash M S = payload_for_hash M S) ∧
    (∀ M S : String, payload_for_hash M S = pyStrip M ++ "\n%%MATH%%\n" ++ S) ∧
    (∀ M S S' : String, S ≠ S' → payload_for_hash M S ≠ payload_for_hash M S') ∧
    (∀ M M' S : String, pyStrip M ≠ pyStrip M' →
      payload_for_hash M S ≠ payload_for_hash M' S) := by
  refine ⟨fun _ _ => rfl, fun _ _ => rfl, ?_, ?_⟩
  · intro M S S' hne heq
    apply hne
    have h := congrArg String.data heq
    simp only [payload_for_hash, String.data_append, List.append_assoc] at h
    exact String.ext (List.append_cancel_left (List.append_cancel_left h))
  · intro M M' S hne heq
    apply hne
    have h := congrArg String.data heq
    simp only [payload_for_hash, String.data_append] at h
    exact String.ext (List.append_cancel_right (List.append_cancel_right h))

/-- Witness for `C9_amended`: concrete sources and concrete macro preambles
with different stripped forms yield different payloads. -/
theorem C9_amended_witness :
    payload_for_hash "m" "a" ≠ payload_for_hash "m" "b" ∧
    payload_for_hash "x" "s" ≠ payload_for_hash "y" "s" :=
  ⟨C9_amended.2.2.1 "m" "a" "b" (by decide),
   C9_amended.2.2.2 "x" "y" "s" (by decide)⟩

/-- `EscapedConcat` is closed under concatenation. -/
theorem escapedConcat_append (a b : String) (ha : EscapedConcat a)
    (hb : EscapedConcat b) : EscapedConcat (a ++ b) := by
  induction ha with
  | nil =>
    have h : "" ++ b = b := String.ext (by simp)
    rwa [h]
  | tmpl t rest ht _ ih =>
    rw [String.append_assoc]
    exact .tmpl t _ ht ih
  | esc s rest _ ih =>
    rw [String.append_assoc]
    exact .esc s _ ih

/-- A lone escaped string is an `EscapedConcat`. -/
theorem escapedConcat_esc (s : String) : EscapedConcat (escape_html s) := by
  have h := EscapedConcat.esc s "" .nil
  have he : escape_html s ++ "" = escape_html s := String.ext (by simp)
  rwa [he] at h

/-- A lone template fragment is an `EscapedConcat`. -/
theorem escapedConcat_tmpl (t : String) (ht : t ∈ templateFragments) :
    EscapedConcat t := by
  have h := EscapedConcat.tmpl t "" ht .nil
  have he : t ++ "" = t := String.ext (by simp)
  rwa [he] at h

/-- Template–escape–template concatenations are `EscapedConcat`. -/
theorem escapedConcat_tet (a b s : String) (ha : a ∈ templateFragments)
    (hb : b ∈ templateFragments) :
    EscapedConcat (a ++ escape_html s ++ b) := by
  simp only [String.append_assoc]
  exact .tmpl a _ ha (.esc s _ (escapedConcat_tmpl b hb))

/-- Five-part template/escape alternations are `EscapedConcat`. -/
theorem escapedConcat_tetet (a b c s t : String) (ha : a ∈ templateFragments)
    (hb : b ∈ templateFragments) (hc : c ∈ templateFragments) :
    EscapedConcat (a ++ escape_html s ++ b ++ escape_html t ++ c) := by
  simp only [String.append_assoc]
  exact .tmpl a _ ha (.esc s _ (.tmpl b _ hb (.esc t _ (escapedConcat_tmpl c hc))))

/-- Seven-part template/escape alternations are `EscapedConcat`. -/
theorem escapedConcat_tetetet (a b c d s t u : String)
    (ha : a ∈ templateFragments) (hb : b ∈ templateFragments)
    (hc : c ∈ templateFragments) (hd : d ∈ templateFragments) :
    EscapedConcat
      (a ++ escape_html s ++ b ++ escape_html t ++ c ++ escape_html u ++ d) := by
  simp only [String.append_assoc]
  exact .tmpl a _ ha (.esc s _ (.tmpl b _ hb (.esc t _
    (.tmpl c _ hc (.esc u _ (escapedConcat_tmpl d hd))))))

/-- Every single token renders to fixed markup fragments interleaved with
`escape_html` images of token-derived text. -/
theorem renderToken_escapedConcat (sha1Hex : String → String)
    (macros : String) (tok : String × String) :
    EscapedConcat (renderToken sha1Hex macros tok) := by
  unfold renderToken
  dsimp only
  split_ifs
  all_goals
    first
    | exact escapedConcat_esc _
    | exact escapedConcat_tet _ _ _ (by decide) (by decide)
    | exact escapedConcat_tetet _ _ _ _ _ (by decide) (by decide) (by decide)
    | exact escapedConcat_tetetet _ _ _ _ _ _ _
        (by decide) (by decide) (by decide) (by decide)

/-- Appending one escaped character block preserves `escapedCharsOk`. -/
theorem escapedCharsOk_escapeHtmlChar (c : Char) (l : List Char)
    (hl : escapedCharsOk l = true) :
    escapedCharsOk (escapeHtmlChar c ++ l) = true := by
  by_cases h1 : c = '&'
  · subst h1; simp [escapeHtmlChar, escapedCharsOk, List.isPrefixOf, hl]
  by_cases h2 : c = '<'
  · subst h2; simp [escapeHtmlChar, escapedCharsOk, List.isPrefixOf, hl]
  by_cases h3 : c = '>'
  · subst h3; simp [escapeHtmlChar, escapedCharsOk, List.isPrefixOf, hl]
  by_cases h4 : c = '"'
  · subst h4; simp [escapeHtmlChar, escapedCharsOk, List.isPrefixOf, hl]
  by_cases h5 : c = '\''
  · subst h5; simp [escapeHtmlChar, escapedCharsOk, List.isPrefixOf, hl]
  · simp [escapeHtmlChar, escapedCharsOk, h1, h2, h3, h4, h5, hl]

/-- `escape_html` output never contains a raw `<`, `>` or `"`, and every `&`
in it begins one of the five entities of `html.escape`. -/
theorem escape_html_charsOk (s : String) :
    escapedCharsOk (escape_html s).data = true := by
  rcases s with ⟨l⟩
  show escapedCharsOk (l.flatMap escapeHtmlChar) = true
  induction l with
  | nil => rfl
  | cons c rest ih =>
    rw [List.flatMap_cons]
    exact escapedCharsOk_escapeHtmlChar c _ ih

/-- C10: `render_inline_tokens` HTML-escapes every token's text before
placing it in the output: the rendered string is a concatenation of the
fixed markup fragments and `escape_html` images of token-derived strings
(`EscapedConcat`), and `escape_html` output contains no raw `<`, `>` or `"`
and only entity-initial `&` — so the characters `<`, `>`, `&`, `"` occurring
in any token's text never appear unescaped in the returned HTML. -/
theorem C10_render_inline_tokens_escapes (sha1Hex : String → String)
    (macros : String) (tokens : List (String × String)) :
    EscapedConcat (render_inline_tokens sha1Hex macros tokens) ∧
    ∀ s : String, escapedCharsOk (escape_html s).data = true := by
  refine ⟨?_, escape_html_charsOk⟩
  induction tokens with
  | nil => exact .nil
  | cons t rest ih =>
    show EscapedConcat (renderToken sha1Hex macros t ++
      joinAll (rest.map (renderToken sha1Hex macros)))
    exact escapedConcat_append _ _ (renderToken_escapedConcat sha1Hex macros t) ih

end OrgParser
